import Mathlib

/-!
Shallow embedding of the NYISO information-dashboard ingestion pipeline
(`src/scraper/downloader.py`, `src/scraper/csv_parser.py`,
`src/scraper/db_writer.py`, `src/scraper/scraper.py`) together with proofs
about its fallback ladder, retry policy, calendar arithmetic, upsert
idempotence, natural-key matching, transactional atomicity, job
short-circuiting, ancillary fan-out, reference-entity maintenance, and
target-date truncation.

Python `datetime.date`/`datetime` values are modelled as plain records of
naturals; prices and point-ids (Python floats / ints) are modelled as `Int`;
Python dictionaries are modelled as records with `Option` fields (a missing
key is `none`, and bracket access `record['k']` raises, i.e. returns
`Except.error`, when the field is `none`).
-/

namespace NYISO

/-! ## Calendar model (`datetime.date`, `datetime.timedelta`) -/

/-- A Python `datetime.date` (assumed to hold a valid calendar date). -/
structure PyDate where
  year : Nat
  month : Nat
  day : Nat
deriving DecidableEq, Repr

/-- Gregorian leap-year rule, as implemented by Python's `datetime`. -/
def isLeapYear (y : Nat) : Bool :=
  (y % 4 == 0 && y % 100 != 0) || y % 400 == 0

/-- Number of days in month `m` of year `y`. -/
def daysInMonth (y m : Nat) : Nat :=
  if m == 2 then (if isLeapYear y then 29 else 28)
  else if m == 4 || m == 6 || m == 9 || m == 11 then 30
  else 31

/-- `d - timedelta(days=1)` on a valid calendar date
(`downloader.py` line 189). -/
def subOneDay (d : PyDate) : PyDate :=
  if 1 < d.day then ⟨d.year, d.month, d.day - 1⟩
  else if 1 < d.month then ⟨d.year, d.month - 1, daysInMonth d.year (d.month - 1)⟩
  else ⟨d.year - 1, 12, 31⟩

/-- `d.replace(day=k)`. -/
def replaceDay (d : PyDate) (k : Nat) : PyDate :=
  ⟨d.year, d.month, k⟩

/-- `(target_date.replace(day=1) - timedelta(days=1)).replace(day=1)`
(`downloader.py` line 222): first day of the previous calendar month. -/
def prevMonthFirst (d : PyDate) : PyDate :=
  replaceDay (subOneDay (replaceDay d 1)) 1

/-- Zero-padded two-digit rendering used by `strftime('%m')` / `%d`. -/
def pad2 (n : Nat) : String :=
  if n < 10 then "0" ++ toString n else toString n

/-- Zero-padded four-digit rendering used by `strftime('%Y')`. -/
def pad4 (n : Nat) : String :=
  if n < 10 then "000" ++ toString n
  else if n < 100 then "00" ++ toString n
  else if n < 1000 then "0" ++ toString n
  else toString n

/-- `date.strftime('%Y%m%d')`. -/
def fmtYYYYMMDD (d : PyDate) : String :=
  pad4 d.year ++ pad2 d.month ++ pad2 d.day

/-- `date.strftime('%Y%m01')`. -/
def fmtYYYYMM01 (d : PyDate) : String :=
  pad4 d.year ++ pad2 d.month ++ "01"

/-- Replace every non-overlapping occurrence of `pat` by `rep`, scanning
left to right, with enough fuel to consume the whole input. -/
def replaceFuel (pat rep : List Char) : Nat → List Char → List Char
  | 0, s => s
  | _ + 1, [] => []
  | fuel + 1, c :: rest =>
    if pat.isPrefixOf (c :: rest) then
      rep ++ replaceFuel pat rep fuel ((c :: rest).drop pat.length)
    else
      c :: replaceFuel pat rep fuel rest

/-- Python `s.replace(pat, rep)` for a non-empty needle (the URL and
filename templates always substitute non-empty placeholder strings). -/
def pyReplace (s pat rep : String) : String :=
  if pat.data = [] then s
  else ⟨replaceFuel pat.data rep.data s.data.length s.data⟩

/-- A Python `datetime.datetime`. -/
structure PyDateTime where
  year : Nat
  month : Nat
  day : Nat
  hour : Nat
  minute : Nat
  second : Nat
  microsecond : Nat
deriving DecidableEq, Repr

/-- `date.replace(hour=0, minute=0, second=0, microsecond=0)`
(`scraper.py` lines 122, 142, 293, 329). -/
def truncateToMidnight (d : PyDateTime) : PyDateTime :=
  { d with hour := 0, minute := 0, second := 0, microsecond := 0 }

/-- Two datetimes fall on the same calendar day. -/
def sameDay (a b : PyDateTime) : Prop :=
  a.year = b.year ∧ a.month = b.month ∧ a.day = b.day

/-! ## Downloader (`src/scraper/downloader.py`)

One network attempt for one URL is an `HttpOutcome`; the network is an
oracle mapping the attempt index to its outcome.  `download_csv` is the
retry loop of lines 62-107; all exceptions it raises are `DownloadError`s,
collapsed here into `CsvResult.raised`. -/

/-- Outcome of a single `session.get` call. -/
inductive HttpOutcome where
  | success (body : String) (contentType : String)
  | timeout
  | httpError (status : Nat)
  | requestError
deriving DecidableEq, Repr

/-- Result of `download_csv`: returned text, returned `None` (404 after all
retries), or raised `DownloadError`. -/
inductive CsvResult where
  | content (s : String)
  | notFound
  | raised
deriving DecidableEq, Repr

/-- Result plus the observable retry behaviour of one `download_csv` call:
how many `session.get` attempts ran and which backoff sleeps happened. -/
structure CsvCall where
  result : CsvResult
  attempts : Nat
  sleeps : List Nat
deriving DecidableEq, Repr

/-- The `for attempt in range(self.max_retries)` loop of `download_csv`
(lines 62-107), iterating over the remaining attempt indices.  On
`success` the body is returned whatever the content type (lines 68-75).
A timeout sleeps `retry_delay * (attempt + 1)` when attempts remain and
falls through to the next iteration (lines 77-80).  A 404 is retried with
the same backoff and returns `None` on the final attempt (lines 82-92).
A non-404 HTTP error or a request error is retried with the same backoff
and raises `DownloadError` on the final attempt (lines 93-105).  If the
loop exhausts its range, line 107 raises. -/
def downloadCsvLoop (net : Nat → HttpOutcome) (retryDelay maxRetries : Nat) :
    List Nat → CsvCall
  | [] => ⟨.raised, maxRetries, []⟩
  | attempt :: rest =>
    match net attempt with
    | .success body _ct => ⟨.content body, attempt + 1, []⟩
    | .timeout =>
        if attempt < maxRetries - 1 then
          let r := downloadCsvLoop net retryDelay maxRetries rest
          ⟨r.result, r.attempts, retryDelay * (attempt + 1) :: r.sleeps⟩
        else
          let r := downloadCsvLoop net retryDelay maxRetries rest
          ⟨r.result, r.attempts, r.sleeps⟩
    | .httpError status =>
        if status == 404 then
          if attempt < maxRetries - 1 then
            let r := downloadCsvLoop net retryDelay maxRetries rest
            ⟨r.result, r.attempts, retryDelay * (attempt + 1) :: r.sleeps⟩
          else
            ⟨.notFound, attempt + 1, []⟩
        else
          if attempt < maxRetries - 1 then
            let r := downloadCsvLoop net retryDelay maxRetries rest
            ⟨r.result, r.attempts, retryDelay * (attempt + 1) :: r.sleeps⟩
          else
            ⟨.raised, attempt + 1, []⟩
    | .requestError =>
        if attempt < maxRetries - 1 then
          let r := downloadCsvLoop net retryDelay maxRetries rest
          ⟨r.result, r.attempts, retryDelay * (attempt + 1) :: r.sleeps⟩
        else
          ⟨.raised, attempt + 1, []⟩

/-- `download_csv(url)`: run the retry loop over `range(max_retries)`. -/
def downloadCsv (net : Nat → HttpOutcome) (retryDelay maxRetries : Nat) : CsvCall :=
  downloadCsvLoop net retryDelay maxRetries (List.range maxRetries)

/-! `download_with_fallback` (lines 151-237).  The network is an
environment giving, per URL, the per-attempt CSV outcomes, and per
(URL, filename pattern) the result of `download_zip` (lines 109-149:
that function catches every exception and returns the extracted text or
`None`, so its behaviour is an `Option String`). -/

/-- Network environment seen by `download_with_fallback`. -/
structure FallbackEnv where
  csvNet : String → Nat → HttpOutcome
  zipNet : String → String → Option String

/-- Downloader configuration (`__init__`, lines 24-47). -/
structure Downloader where
  maxRetries : Nat
  retryDelay : Nat
  useArchiveFallback : Bool

/-- One rung actually attempted by the fallback ladder. -/
inductive Rung where
  | directCsv (url : String)
  | archiveZip (url : String)
deriving DecidableEq, Repr

/-- Python truthiness of the string `csv_content` (`if csv_content:`):
true exactly when non-empty. -/
def pyTruthyStr (s : String) : Bool :=
  s ≠ ""

/-- What a `download_csv` call contributes to the ladder: its returned
text when truthy, else nothing (a raised `DownloadError` is caught by the
surrounding `try`, and `None` or `''` fails the `if csv_content:` test). -/
def csvRungContent : CsvResult → Option String
  | .content s => if pyTruthyStr s then some s else none
  | .notFound => none
  | .raised => none

/-- What a `download_zip` call contributes: its content when truthy. -/
def zipRungContent : Option String → Option String
  | some s => if pyTruthyStr s then some s else none
  | none => none

/-- The previous-day direct URL (lines 189-191):
`url_template.replace('{YYYYMMDD}', (target_date - 1 day).strftime('%Y%m%d'))`. -/
def prevDateUrl (urlTemplate : String) (targetDate : PyDate) : String :=
  pyReplace urlTemplate "{YYYYMMDD}" (fmtYYYYMMDD (subOneDay targetDate))

/-- The previous-month archive URL (lines 222-227): replace this month's
`%Y%m01` string by the previous month's in `archive_url`. -/
def prevArchiveUrl (archiveUrl : String) (targetDate : PyDate) : String :=
  pyReplace archiveUrl (fmtYYYYMM01 targetDate) (fmtYYYYMM01 (prevMonthFirst targetDate))

/-- `download_with_fallback(direct_url, archive_url, filename_pattern,
target_date, url_template)` (lines 151-237): up to four rungs, each tried
only under the guards in the source, stopping at the first rung yielding
truthy content; returns the content and the list of rungs attempted. -/
def downloadWithFallback (dl : Downloader) (env : FallbackEnv)
    (directUrl : String) (archiveUrl : Option String)
    (filenamePattern : Option String) (targetDate : Option PyDate)
    (urlTemplate : Option String) : Option String × List Rung :=
  -- Rung 1: direct CSV (lines 172-178); DownloadError is caught.
  let r1 := downloadCsv (env.csvNet directUrl) dl.retryDelay dl.maxRetries
  match csvRungContent r1.result with
  | some s => (some s, [.directCsv directUrl])
  | none =>
    let t1 : List Rung := [.directCsv directUrl]
    -- Rung 2: previous date's direct CSV (lines 185-199), guarded by the
    -- truthiness test `if target_date and url_template:`; all exceptions
    -- in the rung are caught.
    match targetDate, urlTemplate with
    | some td, some tpl =>
      if pyTruthyStr tpl then
        let u2 := prevDateUrl tpl td
        let r2 := downloadCsv (env.csvNet u2) dl.retryDelay dl.maxRetries
        (match csvRungContent r2.result with
        | some s => (some s, t1 ++ [.directCsv u2])
        | none => fallbackArchive dl env (t1 ++ [.directCsv u2]) archiveUrl
            filenamePattern targetDate)
      else fallbackArchive dl env t1 archiveUrl filenamePattern targetDate
    | _, _ => fallbackArchive dl env t1 archiveUrl filenamePattern targetDate
where
  /-- Rungs 3 and 4 (lines 201-234): current-month archive, then the
  previous-month archive, both only when archive fallback is enabled and
  the archive URL is truthy (rung 4 additionally needs a target date). -/
  fallbackArchive (dl : Downloader) (env : FallbackEnv) (trace : List Rung)
      (archiveUrl : Option String) (filenamePattern : Option String)
      (targetDate : Option PyDate) : Option String × List Rung :=
    if dl.useArchiveFallback then
      match archiveUrl with
      | some au =>
        if pyTruthyStr au then
          (match zipRungContent (env.zipNet au (filenamePattern.getD "")) with
          | some s => (some s, trace ++ [.archiveZip au])
          | none =>
            match targetDate with
            | some td =>
              let u4 := prevArchiveUrl au td
              (match zipRungContent (env.zipNet u4 (filenamePattern.getD "")) with
              | some s => (some s, trace ++ [.archiveZip au, .archiveZip u4])
              | none => (none, trace ++ [.archiveZip au, .archiveZip u4]))
            | none => (none, trace ++ [.archiveZip au]))
        else (none, trace)
      | none => (none, trace)
    else (none, trace)

/-! ## Transformer: ancillary-service fan-out
(`src/scraper/csv_parser.py`, `_transform_ancillary_services`,
lines 309-349)

A parsed DataFrame row of an ancillary-services report is modelled by its
`Name` cell (absent ⇒ `row.get('Name', '')` yields `''`), its canonical
timestamp cell `row[timestamp_col]`, and its numeric service-price cells
as an association list from column name to `Option Int` (`none` models
both a missing key and a `NaN` cell, the two cases `price is None` /
`pd.isna(price)` exclude). -/

/-- One DataFrame row as seen by `_transform_ancillary_services`. -/
structure AncRow where
  name : Option String
  timestamp : Int
  cells : List (String × Option Int)
deriving DecidableEq, Repr

/-- The DataFrame: its column-name list and its rows. -/
structure AncFrame where
  columns : List String
  rows : List AncRow
deriving DecidableEq, Repr

/-- `row.get(col_name)` on the service-price cells. -/
def cellGet (cells : List (String × Option Int)) (c : String) : Option Int :=
  match cells.find? (fun kv => kv.1 = c) with
  | some kv => kv.2
  | none => none

/-- The `service_columns` mapping of lines 323-329, in source order. -/
def serviceColumns : List (String × String) :=
  [("10 Min Spinning Reserve ($/MWHr)", "spinning_reserve"),
   ("10 Min Non-Synchronous Reserve ($/MWHr)", "non_sync_reserve"),
   ("30 Min Operating Reserve ($/MWHr)", "operating_reserve"),
   ("NYCA Regulation Capacity ($/MWHr)", "regulation_capacity"),
   ("NYCA Regulation Movement ($/MW)", "regulation_movement")]

/-- One canonical ancillary-service output record (lines 341-347). -/
structure AncOut where
  timestamp : Int
  zone_name : String
  market_type : String
  service_type : String
  price : Option Int
deriving DecidableEq, Repr

/-- `_transform_ancillary_services(df, timestamp_col, report_code)`:
`market_type = 'realtime' if report_code == 'P-6B' else 'dayahead'`
(line 320); per row and per service column present in the frame, emit a
record exactly when the price is non-null and non-zero (line 340). -/
def transformAncillaryServices (df : AncFrame) (reportCode : String) :
    List AncOut :=
  let marketType := if reportCode = "P-6B" then "realtime" else "dayahead"
  df.rows.flatMap (fun row =>
    serviceColumns.filterMap (fun cs =>
      if cs.1 ∈ df.columns then
        match cellGet row.cells cs.1 with
        | some price =>
          if price ≠ 0 then
            some ⟨row.timestamp, row.name.getD "", marketType, cs.2,
                  some price⟩
          else none
        | none => none
      else none))

/-- The number of qualifying service columns of one row: present in the
frame, non-null and non-zero. -/
def qualifyingColumns (columns : List String) (row : AncRow) :
    List (String × String) :=
  serviceColumns.filter (fun cs =>
    decide (cs.1 ∈ columns) && (match cellGet row.cells cs.1 with
                                | some price => decide (price ≠ 0)
                                | none => false))

/-! ## Writer (`src/scraper/db_writer.py`)

The relational store is a `Db` of in-memory tables; a SQLAlchemy session
is a pair of a committed and a pending `Db` (queries see the pending
state, `commit` publishes it, `rollback` discards it).  The embedding
models the two fact families the claims exercise — real-time LBMP
(simple natural key) and ancillary services (natural key with two
discriminator columns) — plus the weather table used by the Open-Meteo
job, and the `Zone` / `Interface` reference entities. -/

/-- Python `str.upper()` on one character (ASCII range, which covers the
zone names the reports carry). -/
def pyCharUpper (c : Char) : Char :=
  if 'a' ≤ c ∧ c ≤ 'z' then Char.ofNat (c.toNat - 32) else c

/-- Python `name.upper()`. -/
def pyUpper (s : String) : String :=
  ⟨s.data.map pyCharUpper⟩

/-- A raised Python exception. -/
inductive PyExc where
  | keyError (field : String)
deriving DecidableEq, Repr

/-- Render an exception as its job `error_message` string. -/
def pyExcMessage : PyExc → String
  | .keyError f => f

/-- Python truthiness of an optional int (`if ptid:` / `not zone.ptid`):
`None` and `0` are falsy. -/
def pyTruthyInt (o : Option Int) : Bool :=
  match o with
  | some n => n != 0
  | none => false

/-- A `Zone` reference entity (`schema.py`). -/
structure Zone where
  id : Nat
  name : String
  ptid : Option Int
deriving DecidableEq, Repr

/-- An `Interface` reference entity. -/
structure Interface where
  id : Nat
  name : String
  point_id : Option Int
deriving DecidableEq, Repr

/-- A `RealTimeLBMP` fact row. -/
structure RTRow where
  timestamp : Int
  zone_id : Nat
  ptid : Option Int
  lbmp : Option Int
  marginal_cost_losses : Option Int
  marginal_cost_congestion : Option Int
deriving DecidableEq, Repr

/-- An `AncillaryService` fact row. -/
structure AncServiceRow where
  timestamp : Int
  zone_id : Nat
  market_type : String
  service_type : String
  price : Option Int
deriving DecidableEq, Repr

/-- A `WeatherForecast` fact row. -/
structure WeatherRow where
  timestamp : Int
  forecast_time : Int
  location : String
  vintage : Option String
  temperature_f : Option Int
  humidity_percent : Option Int
  wind_speed_mph : Option Int
  wind_direction : Option String
  cloud_cover_percent : Option Int
  zone_name : Option String
  irradiance_w_m2 : Option Int
  data_source : String
deriving DecidableEq, Repr

/-- A `DataSource` row (only the columns the modelled logic reads). -/
structure DataSource where
  id : Nat
  report_code : String
deriving DecidableEq, Repr

/-- A `ScrapingJob` row (`schema.py` lines 45-64; the three counts default
to 0; start/completion wall-clock timestamps are not modelled). -/
structure ScrapingJob where
  id : Nat
  data_source_id : Nat
  target_date : PyDateTime
  status : String
  rows_scraped : Nat
  rows_inserted : Nat
  rows_updated : Nat
  error_message : Option String
deriving DecidableEq, Repr

/-- The store: reference tables, the modelled fact tables, and the job
table, with autoincrement counters standing in for primary-key
assignment at `flush`. -/
structure Db where
  zones : List Zone
  interfaces : List Interface
  rtLbmp : List RTRow
  ancillary : List AncServiceRow
  weather : List WeatherRow
  dataSources : List DataSource
  jobs : List ScrapingJob
  nextZoneId : Nat
  nextInterfaceId : Nat
  nextDataSourceId : Nat
  nextJobId : Nat
deriving DecidableEq, Repr

/-- Replace the first element satisfying `p` by its image under `f`
(an in-place ORM mutation of the first query result). -/
def updateFirst {α : Type} (p : α → Bool) (f : α → α) : List α → List α
  | [] => []
  | a :: l => if p a then f a :: l else a :: updateFirst p f l

/-- A record as produced by the transformer for the two modelled fact
families: a Python dict, so every field is optional. -/
structure Record where
  timestamp : Option Int
  zone_name : Option String
  ptid : Option Int
  lbmp : Option Int
  marginal_cost_losses : Option Int
  marginal_cost_congestion : Option Int
  market_type : Option String
  service_type : Option String
  price : Option Int
deriving DecidableEq, Repr

/-- `get_or_create_zone(name, ptid)` (`db_writer.py` lines 28-37): find by
uppercased name, else create; on a hit, `elif ptid and not zone.ptid:`
fills the stored ptid — by Python truthiness this also fires when the
stored ptid is `0`. -/
def getOrCreateZone (db : Db) (name : String) (ptid : Option Int) :
    Zone × Db :=
  match db.zones.find? (fun z => z.name == pyUpper name) with
  | none =>
      let z : Zone := ⟨db.nextZoneId, pyUpper name, ptid⟩
      (z, { db with zones := db.zones ++ [z], nextZoneId := db.nextZoneId + 1 })
  | some z =>
      if pyTruthyInt ptid && !pyTruthyInt z.ptid then
        ({ z with ptid := ptid },
         { db with zones := updateFirst (fun w => w.name == pyUpper name)
                     (fun w => { w with ptid := ptid }) db.zones })
      else (z, db)

/-- `get_or_create_interface(name, point_id)` (lines 39-48): same shape,
but the lookup and the created row use the name exactly as given (no
uppercasing in the source). -/
def getOrCreateInterface (db : Db) (name : String) (pointId : Option Int) :
    Interface × Db :=
  match db.interfaces.find? (fun z => z.name == name) with
  | none =>
      let z : Interface := ⟨db.nextInterfaceId, name, pointId⟩
      (z, { db with interfaces := db.interfaces ++ [z],
                    nextInterfaceId := db.nextInterfaceId + 1 })
  | some z =>
      if pyTruthyInt pointId && !pyTruthyInt z.point_id then
        ({ z with point_id := pointId },
         { db with interfaces := updateFirst (fun w => w.name == name)
                     (fun w => { w with point_id := pointId }) db.interfaces })
      else (z, db)

/-- Natural-key predicate of `upsert_realtime_lbmp` (lines 58-63). -/
def rtKeyIs (ts : Int) (zid : Nat) (row : RTRow) : Bool :=
  row.timestamp == ts && row.zone_id == zid

/-- The update path of `upsert_realtime_lbmp` (lines 65-69): overwrite
the value columns of the first row matching the key. -/
def rtUpdateStep (r : Record) (ts : Int) (zid : Nat) (db : Db) : Db :=
  { db with rtLbmp :=
    (updateFirst (rtKeyIs ts zid)
      (fun row =>
        { row with lbmp := r.lbmp,
                   marginal_cost_losses := r.marginal_cost_losses,
                   marginal_cost_congestion := r.marginal_cost_congestion })
      db.rtLbmp) }

/-- The insert path of `upsert_realtime_lbmp` (lines 70-80): add a new
row carrying the key and value columns. -/
def rtInsertStep (r : Record) (ts : Int) (zid : Nat) (db : Db) : Db :=
  { db with rtLbmp :=
    (db.rtLbmp ++
      [⟨ts, zid, r.ptid, r.lbmp, r.marginal_cost_losses,
        r.marginal_cost_congestion⟩]) }

/-- `upsert_realtime_lbmp(records)` (lines 50-82): per record, resolve the
zone from `record['zone_name']` / `record.get('ptid')`, look up an
existing row by (timestamp, zone_id); on a hit overwrite the value
columns, else insert; return (inserted, updated).  Bracket access on a
missing key raises `KeyError`; a raised exception carries the session
state at raise time (the mutations of earlier records stay pending). -/
def upsertRealtimeLbmp : List Record → Db → Except (PyExc × Db) (Db × Nat × Nat)
  | [], db => .ok (db, 0, 0)
  | r :: rest, db =>
    match r.zone_name with
    | none => .error (.keyError "zone_name", db)
    | some zn =>
      let (zone, db1) := getOrCreateZone db zn r.ptid
      match r.timestamp with
      | none => .error (.keyError "timestamp", db1)
      | some ts =>
        match db1.rtLbmp.find? (rtKeyIs ts zone.id) with
        | some _ =>
            (match upsertRealtimeLbmp rest (rtUpdateStep r ts zone.id db1) with
             | .ok (db3, i, u) => .ok (db3, i, u + 1)
             | .error e => .error e)
        | none =>
            (match upsertRealtimeLbmp rest (rtInsertStep r ts zone.id db1) with
             | .ok (db3, i, u) => .ok (db3, i + 1, u)
             | .error e => .error e)

/-- Natural-key predicate of `upsert_ancillary_services` (lines 258-265):
timestamp and zone plus the two discriminator columns. -/
def ancKeyIs (ts : Int) (zid : Nat) (mt st : String) (row : AncServiceRow) :
    Bool :=
  row.timestamp == ts && row.zone_id == zid && row.market_type == mt &&
    row.service_type == st

/-- The update path of `upsert_ancillary_services` (lines 267-269): a hit
only overwrites `price`. -/
def ancUpdateStep (r : Record) (ts : Int) (zid : Nat) (mt st : String)
    (db : Db) : Db :=
  { db with ancillary :=
    (updateFirst (ancKeyIs ts zid mt st)
      (fun row => { row with price := r.price }) db.ancillary) }

/-- The insert path of `upsert_ancillary_services` (lines 270-279). -/
def ancInsertStep (r : Record) (ts : Int) (zid : Nat) (mt st : String)
    (db : Db) : Db :=
  { db with ancillary := db.ancillary ++ [⟨ts, zid, mt, st, r.price⟩] }

/-- `upsert_ancillary_services(records)` (lines 250-281): the zone is
resolved without a ptid; `service_type` defaults to `'regulation'`. -/
def upsertAncillaryServices : List Record → Db →
    Except (PyExc × Db) (Db × Nat × Nat)
  | [], db => .ok (db, 0, 0)
  | r :: rest, db =>
    match r.zone_name with
    | none => .error (.keyError "zone_name", db)
    | some zn =>
      let (zone, db1) := getOrCreateZone db zn none
      match r.timestamp, r.market_type with
      | none, _ => .error (.keyError "timestamp", db1)
      | some _, none => .error (.keyError "market_type", db1)
      | some ts, some mt =>
        let st := r.service_type.getD "regulation"
        match db1.ancillary.find? (ancKeyIs ts zone.id mt st) with
        | some _ =>
            (match upsertAncillaryServices rest
                (ancUpdateStep r ts zone.id mt st db1) with
             | .ok (db3, i, u) => .ok (db3, i, u + 1)
             | .error e => .error e)
        | none =>
            (match upsertAncillaryServices rest
                (ancInsertStep r ts zone.id mt st db1) with
             | .ok (db3, i, u) => .ok (db3, i + 1, u)
             | .error e => .error e)

/-- A weather record dict (`upsert_weather_forecast` reads these keys; here
`none` models an absent key, so the source's `'zone_name' in record` /
`'irradiance_w_m2' in record` / `'data_source' in record` guards become
`isSome` tests). -/
structure WeatherRecord where
  timestamp : Option Int
  forecast_time : Option Int
  location : Option String
  vintage : Option String
  temperature_f : Option Int
  humidity_percent : Option Int
  wind_speed_mph : Option Int
  wind_direction : Option String
  cloud_cover_percent : Option Int
  zone_name : Option String
  irradiance_w_m2 : Option Int
  data_source : Option String
deriving DecidableEq, Repr

/-- Natural-key predicate of `upsert_weather_forecast` (lines 468-476). -/
def weatherKeyIs (ts ft : Int) (loc : String) (vin : Option String)
    (ds : String) (row : WeatherRow) : Bool :=
  row.timestamp == ts && row.forecast_time == ft && row.location == loc &&
    row.vintage == vin && row.data_source == ds

/-- The update path of `upsert_weather_forecast` (lines 478-491):
overwrite the measurement columns and, only when the record carries them,
`zone_name`, `irradiance_w_m2` and `data_source`. -/
def weatherUpdateStep (r : WeatherRecord) (ts ft : Int) (loc : String)
    (db : Db) : Db :=
  { db with weather :=
    (updateFirst (weatherKeyIs ts ft loc r.vintage (r.data_source.getD "NYISO"))
      (fun row =>
        { row with temperature_f := r.temperature_f,
                   humidity_percent := r.humidity_percent,
                   wind_speed_mph := r.wind_speed_mph,
                   wind_direction := r.wind_direction,
                   cloud_cover_percent := r.cloud_cover_percent,
                   zone_name := (if r.zone_name.isSome then r.zone_name
                                 else row.zone_name),
                   irradiance_w_m2 := (if r.irradiance_w_m2.isSome then
                                         r.irradiance_w_m2
                                       else row.irradiance_w_m2),
                   data_source := (match r.data_source with
                                   | some s => s
                                   | none => row.data_source) })
      db.weather) }

/-- The insert path of `upsert_weather_forecast` (lines 492-508). -/
def weatherInsertStep (r : WeatherRecord) (ts ft : Int) (loc : String)
    (db : Db) : Db :=
  { db with weather :=
    (db.weather ++
      [⟨ts, ft, loc, r.vintage, r.temperature_f, r.humidity_percent,
        r.wind_speed_mph, r.wind_direction, r.cloud_cover_percent,
        r.zone_name, r.irradiance_w_m2, r.data_source.getD "NYISO"⟩]) }

/-- `upsert_weather_forecast(records)` (lines 459-510): key is
(timestamp, forecast_time, location, vintage, data_source) with
`data_source` defaulting to `'NYISO'` and `location` to `''`. -/
def upsertWeatherForecast : List WeatherRecord → Db →
    Except (PyExc × Db) (Db × Nat × Nat)
  | [], db => .ok (db, 0, 0)
  | r :: rest, db =>
    match r.timestamp, r.forecast_time with
    | none, _ => .error (.keyError "timestamp", db)
    | some _, none => .error (.keyError "forecast_time", db)
    | some ts, some ft =>
      let loc := r.location.getD ""
      match db.weather.find?
          (weatherKeyIs ts ft loc r.vintage (r.data_source.getD "NYISO")) with
      | some _ =>
          (match upsertWeatherForecast rest (weatherUpdateStep r ts ft loc db) with
           | .ok (db3, i, u) => .ok (db3, i, u + 1)
           | .error e => .error e)
      | none =>
          (match upsertWeatherForecast rest (weatherInsertStep r ts ft loc db) with
           | .ok (db3, i, u) => .ok (db3, i + 1, u)
           | .error e => .error e)

/-- A SQLAlchemy session over the store: queries and mutations act on the
pending state; `commit` publishes it to the committed state; `rollback`
resets the pending state to the committed one. -/
structure Session where
  committed : Db
  pending : Db
deriving DecidableEq, Repr

/-- `session.commit()`. -/
def Session.commit (s : Session) : Session :=
  ⟨s.pending, s.pending⟩

/-- `session.rollback()`. -/
def Session.rollback (s : Session) : Session :=
  ⟨s.committed, s.committed⟩

/-- The report-code dispatch of `write_records` (lines 554-584),
restricted to the two fact families modelled here: `'P-24A'` routes to
`upsert_realtime_lbmp` and `'P-6B'`/`'P-5'` to
`upsert_ancillary_services`; the remaining arms of the source's chain
route analogously to their per-table upserts and are outside this
model's scope, so they fall to `none` here (as the source's final `else`
does for genuinely unknown codes). -/
def dispatchUpsert (reportCode : String) :
    Option (List Record → Db → Except (PyExc × Db) (Db × Nat × Nat)) :=
  if reportCode = "P-24A" then some upsertRealtimeLbmp
  else if reportCode = "P-6B" || reportCode = "P-5" then
    some upsertAncillaryServices
  else none

/-- `write_records(records, report_code, job)` (lines 541-593): dispatch
to the per-table upsert, commit on success and return the counts; on an
unmatched code return `(0, 0)` without committing; on any exception roll
the session back and re-raise. -/
def writeRecords (records : List Record) (reportCode : String)
    (sess : Session) : Session × Except PyExc (Nat × Nat) :=
  match dispatchUpsert reportCode with
  | none => (sess, .ok (0, 0))
  | some up =>
    match up records sess.pending with
    | .ok (db', i, u) => (Session.commit ⟨sess.committed, db'⟩, .ok (i, u))
    | .error (e, _) => (sess.rollback, .error e)

/-! ## Scraper orchestration (`src/scraper/scraper.py`) -/

/-- A `DataSourceConfig` (`config/url_config.py`; only the fields the
scraper reads). -/
structure SourceConfig where
  data_type : String
  report_code : String
  filename_pattern : String
  direct_csv_url_template : String
  archive_zip_url_template : String
deriving DecidableEq, Repr

/-- The calendar date of a datetime (`strftime` only reads these). -/
def PyDateTime.toDate (d : PyDateTime) : PyDate :=
  ⟨d.year, d.month, d.day⟩

/-- `config.build_url(date, use_archive)` (`url_config.py` lines 25-35). -/
def SourceConfig.buildUrl (cfg : SourceConfig) (date : PyDateTime)
    (useArchive : Bool) : String :=
  if useArchive then
    pyReplace cfg.archive_zip_url_template "{YYYYMM01}" (fmtYYYYMM01 date.toDate)
  else
    pyReplace cfg.direct_csv_url_template "{YYYYMMDD}" (fmtYYYYMMDD date.toDate)

/-- `config.get_filename_pattern(date)` (`url_config.py` lines 37-40). -/
def SourceConfig.getFilenamePattern (cfg : SourceConfig) (date : PyDateTime) :
    String :=
  pyReplace cfg.filename_pattern "{YYYYMMDD}" (fmtYYYYMMDD date.toDate)

/-- Observable side effects of one `_scrape_single_source` run: each
network fetch of the download ladder, the parse step, the write step. -/
inductive Effect where
  | fetch (r : Rung)
  | parseCsv
  | write
deriving DecidableEq, Repr

/-- The existing-job query of `_scrape_single_source` (lines 120-124):
join `ScrapingJob` with `DataSource`, filter on report code, truncated
target date and `'completed'` status. -/
def jobMatches (db : Db) (code : String) (tgt : PyDateTime)
    (j : ScrapingJob) : Bool :=
  (match db.dataSources.find? (fun ds => ds.id == j.data_source_id) with
   | some ds => ds.report_code == code
   | none => false)
  && j.target_date == tgt && j.status == "completed"

/-- A store with its job table replaced. -/
def withJobs (db : Db) (jobs : List ScrapingJob) : Db :=
  { db with jobs := jobs }

/-- Mark the job `failed` with an error message, commit, and return the
job (failure arms of lines 189-211). -/
def failJob (jobId : Nat) (msg : String) (sess : Session) :
    Option ScrapingJob × Session :=
  ((updateFirst (fun j => j.id == jobId)
      (fun j => { j with status := "failed", error_message := some msg })
      sess.pending.jobs).find? (fun j => j.id == jobId),
   Session.commit ⟨sess.committed,
     withJobs sess.pending
       (updateFirst (fun j => j.id == jobId)
         (fun j => { j with status := "failed", error_message := some msg })
         sess.pending.jobs)⟩)

/-- Set the final counts and `completed` status, commit, and return the
job (lines 182-187 and 210). -/
def completeJob (jobId : Nat) (ins upd : Nat) (sess : Session) :
    Option ScrapingJob × Session :=
  ((updateFirst (fun j => j.id == jobId)
      (fun j => { j with rows_inserted := ins, rows_updated := upd,
                         status := "completed" })
      sess.pending.jobs).find? (fun j => j.id == jobId),
   Session.commit ⟨sess.committed,
     withJobs sess.pending
       (updateFirst (fun j => j.id == jobId)
         (fun j => { j with rows_inserted := ins, rows_updated := upd,
                            status := "completed" })
         sess.pending.jobs)⟩)

/-- `job.rows_scraped = len(csv_content.split('\n')) - 1` (line 169), a
pending (uncommitted) mutation. -/
def setRowsScraped (jobId n : Nat) (sess : Session) : Session :=
  ⟨sess.committed,
   withJobs sess.pending
     (updateFirst (fun j => j.id == jobId)
       (fun j => { j with rows_scraped := n }) sess.pending.jobs)⟩

/-- `_scrape_single_source(config, date, force)` (lines 111-211).  The
network is the downloader environment; the parse-and-transform step
(lines 173-174) is an oracle from the downloaded text to records or a
`CSVParseError`.  Returns the job the call returns, the session, and the
trace of effects performed. -/
def scrapeSingleSource (cfg : SourceConfig) (date : PyDateTime)
    (force : Bool) (dl : Downloader) (env : FallbackEnv)
    (parse : String → Except Unit (List Record)) (sess : Session) :
    Option ScrapingJob × Session × List Effect :=
  let tgt := truncateToMidnight date
  -- lines 119-128: completed-job short-circuit unless forced
  match (if force then none
         else sess.pending.jobs.find? (jobMatches sess.pending cfg.report_code tgt)) with
  | some j => (some j, sess, [])
  | none =>
    -- lines 131-137: the data source must exist
    match sess.pending.dataSources.find?
        (fun ds => ds.report_code == cfg.report_code) with
    | none => (none, sess, [])
    | some ds =>
      -- lines 140-147: create the job row and commit
      let job0 : ScrapingJob :=
        ⟨sess.pending.nextJobId, ds.id, tgt, "running", 0, 0, 0, none⟩
      let sess1 := Session.commit ⟨sess.committed,
        { sess.pending with jobs := sess.pending.jobs ++ [job0],
                            nextJobId := sess.pending.nextJobId + 1 }⟩
      -- lines 150-164: URLs and the download ladder
      let (body, rungs) := downloadWithFallback dl env
        (cfg.buildUrl date false) (some (cfg.buildUrl date true))
        (some (cfg.getFilenamePattern date)) (some date.toDate)
        (some cfg.direct_csv_url_template)
      let effects := rungs.map Effect.fetch
      match body with
      | none =>
        -- line 166-167 raises DownloadError; lines 189-194 record it
        let (j, sess2) := failJob job0.id "download failed" sess1
        (j, sess2, effects)
      | some csv =>
        if pyTruthyStr csv then
          let sess2 := setRowsScraped job0.id
            ((csv.splitOn "\n").length - 1) sess1
          match parse csv with
          | .error _ =>
            -- lines 196-201: CSVParseError marks the job failed
            let (j, sess3) := failJob job0.id "parse failed" sess2
            (j, sess3, effects ++ [.parseCsv])
          | .ok records =>
            -- lines 179-187: transactional write then final counts
            let (sess3, res) := writeRecords records cfg.report_code sess2
            match res with
            | .ok (i, u) =>
              let (j, sess4) := completeJob job0.id i u sess3
              (j, sess4, effects ++ [.parseCsv, .write])
            | .error e =>
              let (j, sess4) := failJob job0.id (pyExcMessage e) sess3
              (j, sess4, effects ++ [.parseCsv, .write])
        else
          let (j, sess2) := failJob job0.id "download failed" sess1
          (j, sess2, effects)

/-- Oracles of `scrape_openmeteo_weather`: whether `OPENMETEO_API_KEY` is
set, how many configured locations exist, and the outcome of the
download-and-parse of each location (an exception there is caught and
counted, lines 384-394). -/
structure OpenMeteoOracle where
  apiKeyPresent : Bool
  locationCount : Nat
  fetchLocation : Nat → Except Unit (List WeatherRecord)

/-- `scrape_openmeteo_weather(date, force)` (lines 269-434): no-op without
the API key; completed-job short-circuit on the truncated date; lazily
create the `OPENMETEO-WEATHER` data source; create the job; accumulate
records over all locations, counting failures per location; write them
all with `upsert_weather_forecast`; status is `completed` when at least
one location succeeded (or there were none), else `failed`. -/
def scrapeOpenmeteoWeather (date : PyDateTime) (force : Bool)
    (oracle : OpenMeteoOracle) (sess : Session) :
    Option ScrapingJob × Session :=
  if !oracle.apiKeyPresent then (none, sess)
  else
    let today := truncateToMidnight date
    match (if force then none
           else sess.pending.jobs.find?
             (jobMatches sess.pending "OPENMETEO-WEATHER" today)) with
    | some j => (some j, sess)
    | none =>
      -- lines 306-324: get or create the data source
      let (ds, sess1) :=
        match sess.pending.dataSources.find?
            (fun d => d.report_code == "OPENMETEO-WEATHER") with
        | some d => (d, sess)
        | none =>
          let d : DataSource :=
            ⟨sess.pending.nextDataSourceId, "OPENMETEO-WEATHER"⟩
          (d, Session.commit ⟨sess.committed,
            { sess.pending with
                dataSources := sess.pending.dataSources ++ [d],
                nextDataSourceId := sess.pending.nextDataSourceId + 1 }⟩)
      -- lines 327-334: create the job row and commit
      let job0 : ScrapingJob :=
        ⟨sess1.pending.nextJobId, ds.id, today, "running", 0, 0, 0, none⟩
      let sess2 := Session.commit ⟨sess1.committed,
        { sess1.pending with jobs := sess1.pending.jobs ++ [job0],
                             nextJobId := sess1.pending.nextJobId + 1 }⟩
      -- lines 350-394: per-location loop, isolating per-location failures
      let step := fun (acc : List WeatherRecord × Nat × Nat) (i : Nat) =>
        match oracle.fetchLocation i with
        | .ok recs => (acc.1 ++ recs, acc.2.1 + 1, acc.2.2)
        | .error _ => (acc.1, acc.2.1, acc.2.2 + 1)
      let (allRecords, succOk, failed) :=
        (List.range oracle.locationCount).foldl step ([], 0, 0)
      -- lines 396-424: write and set counts/status; lines 426-431 catch
      -- an exception from the write; line 433 commits either way
      match (if allRecords.isEmpty then .ok (sess2.pending, 0, 0)
             else upsertWeatherForecast allRecords sess2.pending) with
      | .error (e, dbAtRaise) =>
        let p := { dbAtRaise with jobs :=
          (updateFirst (fun j => j.id == job0.id)
            (fun j => { j with status := "failed",
                               error_message := some (pyExcMessage e) })
            dbAtRaise.jobs) }
        (p.jobs.find? (fun j => j.id == job0.id),
         Session.commit ⟨sess2.committed, p⟩)
      | .ok (db', ins, upd) =>
        let counts : Nat × Nat × Nat :=
          if allRecords.isEmpty then (0, 0, 0)
          else (allRecords.length, ins, upd)
        let final : String × Option String :=
          if failed == 0 then ("completed", none)
          else if 0 < succOk then ("completed", none)
          else ("failed",
                some ("All " ++ toString failed ++ " locations failed"))
        let p := { db' with jobs :=
          (updateFirst (fun j => j.id == job0.id)
            (fun j => { j with rows_scraped := counts.1,
                               rows_inserted := counts.2.1,
                               rows_updated := counts.2.2,
                               status := final.1,
                               error_message := final.2 })
            db'.jobs) }
        (p.jobs.find? (fun j => j.id == job0.id),
         Session.commit ⟨sess2.committed, p⟩)

/-! ## Theorems -/

/-! ### C3: calendar-correct fallback dates -/

/-- C3: the fallback date computations are calendar-correct: for a target
date of January 1 the previous-day rung requests December 31 of the prior
year (and builds the corresponding `%Y%m%d` URL); for March 1 of a leap
year it requests February 29; and the previous-month archive rung for any
January date uses December 1 of the prior year. -/
theorem C3_fallback_dates_calendar_correct (y z d : Nat)
    (hz : isLeapYear z = true) :
    subOneDay ⟨y + 1, 1, 1⟩ = ⟨y, 12, 31⟩ ∧
    subOneDay ⟨z, 3, 1⟩ = ⟨z, 2, 29⟩ ∧
    prevMonthFirst ⟨y + 1, 1, d⟩ = ⟨y, 12, 1⟩ ∧
    prevDateUrl "http://mis.nyiso.com/P-24A/{YYYYMMDD}damlbmp_zone.csv"
      ⟨2026, 1, 1⟩ = "http://mis.nyiso.com/P-24A/20251231damlbmp_zone.csv" := by
  refine ⟨?_, ?_, ?_, ?_⟩
  · simp [subOneDay]
  · simp [subOneDay, daysInMonth, hz]
  · simp [prevMonthFirst, replaceDay, subOneDay]
  · rfl

/-- Witness for C3 at January 1 2026, March 1 2024 (a leap year) and
January 15 2026. -/
theorem C3_fallback_dates_calendar_correct_witness :
    isLeapYear 2024 = true ∧
    (subOneDay ⟨2026, 1, 1⟩ = ⟨2025, 12, 31⟩ ∧
     subOneDay ⟨2024, 3, 1⟩ = ⟨2024, 2, 29⟩ ∧
     prevMonthFirst ⟨2026, 1, 15⟩ = ⟨2025, 12, 1⟩ ∧
     prevDateUrl "http://mis.nyiso.com/P-24A/{YYYYMMDD}damlbmp_zone.csv"
       ⟨2026, 1, 1⟩ = "http://mis.nyiso.com/P-24A/20251231damlbmp_zone.csv") :=
  ⟨by decide, C3_fallback_dates_calendar_correct 2025 2024 15 (by decide)⟩

/-! ### C2: retry policy of one network attempt -/

/-- C2 counterexample: with the default three retries, a URL answering
404 on every attempt IS retried at the top level — `download_csv` runs
all three attempts and sleeps the two linear backoffs in between —
refuting the claim that no retry/backoff loop is entered for a 404.  The
exhausted 404 still yields `None` rather than an exception. -/
theorem C2_404_not_retried_counterexample :
    (downloadCsv (fun _ => .httpError 404) 2 3).attempts = 3 ∧
    (downloadCsv (fun _ => .httpError 404) 2 3).sleeps = [2 * 1, 2 * 2] ∧
    (downloadCsv (fun _ => .httpError 404) 2 3).result = .notFound ∧
    ¬ ((downloadCsv (fun _ => .httpError 404) 2 3).attempts = 1 ∧
       (downloadCsv (fun _ => .httpError 404) 2 3).sleeps = []) := by
  refine ⟨rfl, rfl, rfl, ?_⟩
  intro h
  simp [downloadCsv, downloadCsvLoop, List.range_succ] at h

/-- C2 as amended: within one network attempt for a single URL, timeouts,
404s, non-404 HTTP errors and request errors are all retried with linear
backoff (`delay * attemptNumber`) up to the default three attempts; after
the final attempt a 404 returns `None` — so it does not abort the
fallback ladder but causes fallback to the next rung — while exhausted
timeouts, non-404 HTTP errors and request errors raise `DownloadError`.
Concretely, with the default `max_retries = 3`: an all-404 URL consumes
the three attempts with two backoff sleeps and yields `.notFound`; an
all-non-404-error URL, an all-timeout URL and an all-request-error URL
consume the same attempts and sleeps and raise; a URL that times out,
then fails the request, then succeeds is retried through both failures
with the two linear backoff sleeps and returns its content; and in
`download_with_fallback`, an exhausted-404 first rung falls through to
the previous-day rung, whose content is returned. -/
theorem C2_retry_policy_amended (d status : Nat)
    (net404 net netT netR net2 : Nat → HttpOutcome)
    (env : FallbackEnv) (directUrl tpl body body2 ct2 : String) (td : PyDate)
    (archiveUrl fpat : Option String)
    (h404 : ∀ i, net404 i = .httpError 404)
    (hnet : ∀ i, net i = .httpError status) (hst : status ≠ 404)
    (htime : ∀ i, netT i = .timeout)
    (hreq : ∀ i, netR i = .requestError)
    (hm0 : net2 0 = .timeout) (hm1 : net2 1 = .requestError)
    (hm2 : net2 2 = .success body2 ct2)
    (hdirect : ∀ i, env.csvNet directUrl i = .httpError 404)
    (hprev : ∀ i, env.csvNet (prevDateUrl tpl td) i = .success body "text/csv")
    (hbody : body ≠ "") (htpl : tpl ≠ "") :
    downloadCsv net404 d 3 = ⟨.notFound, 3, [d * 1, d * 2]⟩ ∧
    downloadCsv net d 3 = ⟨.raised, 3, [d * 1, d * 2]⟩ ∧
    downloadCsv netT d 3 = ⟨.raised, 3, [d * 1, d * 2]⟩ ∧
    downloadCsv netR d 3 = ⟨.raised, 3, [d * 1, d * 2]⟩ ∧
    downloadCsv net2 d 3 = ⟨.content body2, 3, [d * 1, d * 2]⟩ ∧
    downloadWithFallback ⟨3, d, true⟩ env directUrl archiveUrl fpat
      (some td) (some tpl) =
      (some body, [.directCsv directUrl, .directCsv (prevDateUrl tpl td)]) := by
  refine ⟨?_, ?_, ?_, ?_, ?_, ?_⟩
  · simp [downloadCsv, downloadCsvLoop, List.range_succ, h404, Nat.mul_comm]
  · simp [downloadCsv, downloadCsvLoop, List.range_succ, hnet, hst,
      Nat.mul_comm]
  · simp [downloadCsv, downloadCsvLoop, List.range_succ, htime, Nat.mul_comm]
  · simp [downloadCsv, downloadCsvLoop, List.range_succ, hreq, Nat.mul_comm]
  · simp [downloadCsv, downloadCsvLoop, List.range_succ, hm0, hm1, hm2,
      Nat.mul_comm]
  · have hr1 : downloadCsv (env.csvNet directUrl) d 3 = ⟨.notFound, 3, [d * 1, d * 2]⟩ := by
      simp [downloadCsv, downloadCsvLoop, List.range_succ, hdirect, Nat.mul_comm]
    have hr2 : downloadCsv (env.csvNet (prevDateUrl tpl td)) d 3 =
        ⟨.content body, 1, []⟩ := by
      simp [downloadCsv, downloadCsvLoop, List.range_succ, hprev]
    simp [downloadWithFallback, hr1, hr2, csvRungContent, pyTruthyStr, htpl,
      hbody]

/-- Concrete network for the C2 witness: the direct URL answers 404 on
every attempt, the previous-day URL answers content. -/
def retryWitnessEnv : FallbackEnv :=
  ⟨fun url _ => if url = "T20251231" then .success "B" "text/csv"
                else .httpError 404,
   fun _ _ => none⟩

/-- Mixed network for the C2 witness: a timeout on the first attempt, a
request error on the second, success on the third. -/
def mixedRetryNet : Nat → HttpOutcome :=
  fun i => if i = 0 then .timeout
           else if i = 1 then .requestError
           else .success "M" "text/csv"

/-- Witness for C2 as amended, at the default three retries with delay 2:
an all-404 URL, an all-500 URL, an all-timeout URL, an all-request-error
URL, a URL that recovers on its third attempt, and a ladder whose first
rung 404s out and whose previous-day rung succeeds. -/
theorem C2_retry_policy_amended_witness :
    downloadCsv (fun _ => .httpError 404) 2 3 = ⟨.notFound, 3, [2 * 1, 2 * 2]⟩ ∧
    downloadCsv (fun _ => .httpError 500) 2 3 = ⟨.raised, 3, [2 * 1, 2 * 2]⟩ ∧
    downloadCsv (fun _ => .timeout) 2 3 = ⟨.raised, 3, [2 * 1, 2 * 2]⟩ ∧
    downloadCsv (fun _ => .requestError) 2 3 = ⟨.raised, 3, [2 * 1, 2 * 2]⟩ ∧
    downloadCsv mixedRetryNet 2 3 = ⟨.content "M", 3, [2 * 1, 2 * 2]⟩ ∧
    downloadWithFallback ⟨3, 2, true⟩ retryWitnessEnv "D" none none
      (some ⟨2026, 1, 1⟩) (some "T{YYYYMMDD}") =
      (some "B", [.directCsv "D",
                  .directCsv (prevDateUrl "T{YYYYMMDD}" ⟨2026, 1, 1⟩)]) := by
  refine C2_retry_policy_amended 2 500 (fun _ => .httpError 404)
      (fun _ => .httpError 500) (fun _ => .timeout) (fun _ => .requestError)
      mixedRetryNet retryWitnessEnv "D" "T{YYYYMMDD}" "B" "M" "text/csv"
      ⟨2026, 1, 1⟩ none none (fun _ => rfl) (fun _ => rfl) (by decide)
      (fun _ => rfl) (fun _ => rfl) rfl rfl rfl ?_ ?_ (by decide) (by decide)
  · intro i; rfl
  · intro i; rfl

/-! ### C1: the four-rung fallback ladder -/

/-- C1: with archive fallback enabled and all call parameters supplied
(as the scraper supplies them), `download_with_fallback` attempts exactly
the four rungs in order — direct URL, previous-day direct URL,
current-month archive, previous-month archive — stops at the first rung
that yields (truthy) content and returns it, and returns `None` exactly
when all four rungs fail. -/
theorem C1_fallback_ladder_order (dl : Downloader) (env : FallbackEnv)
    (directUrl archiveUrl tpl : String) (fpat : Option String) (td : PyDate)
    (hArch : dl.useArchiveFallback = true) (hA : archiveUrl ≠ "")
    (hT : tpl ≠ "") :
    (downloadWithFallback dl env directUrl (some archiveUrl) fpat (some td)
        (some tpl) =
      (let o1 := csvRungContent
        (downloadCsv (env.csvNet directUrl) dl.retryDelay dl.maxRetries).result
       let o2 := csvRungContent
        (downloadCsv (env.csvNet (prevDateUrl tpl td)) dl.retryDelay
          dl.maxRetries).result
       let o3 := zipRungContent (env.zipNet archiveUrl (fpat.getD ""))
       let o4 := zipRungContent
        (env.zipNet (prevArchiveUrl archiveUrl td) (fpat.getD ""))
       (o1.orElse (fun _ => o2.orElse (fun _ => o3.orElse (fun _ => o4))),
        if o1.isSome then [.directCsv directUrl]
        else if o2.isSome then
          [.directCsv directUrl, .directCsv (prevDateUrl tpl td)]
        else if o3.isSome then
          [.directCsv directUrl, .directCsv (prevDateUrl tpl td),
           .archiveZip archiveUrl]
        else
          [.directCsv directUrl, .directCsv (prevDateUrl tpl td),
           .archiveZip archiveUrl,
           .archiveZip (prevArchiveUrl archiveUrl td)]))) ∧
    ((downloadWithFallback dl env directUrl (some archiveUrl) fpat (some td)
        (some tpl)).1 = none ↔
      (csvRungContent (downloadCsv (env.csvNet directUrl) dl.retryDelay
        dl.maxRetries).result = none ∧
       csvRungContent (downloadCsv (env.csvNet (prevDateUrl tpl td))
        dl.retryDelay dl.maxRetries).result = none ∧
       zipRungContent (env.zipNet archiveUrl (fpat.getD "")) = none ∧
       zipRungContent (env.zipNet (prevArchiveUrl archiveUrl td)
        (fpat.getD "")) = none)) := by
  constructor
  · simp only [downloadWithFallback, downloadWithFallback.fallbackArchive,
      hArch, pyTruthyStr, hA, hT, if_true, ne_eq, not_false_eq_true,
      decide_True]
    cases h1 : csvRungContent
        (downloadCsv (env.csvNet directUrl) dl.retryDelay dl.maxRetries).result with
    | some s => simp [h1, Option.orElse]
    | none =>
      cases h2 : csvRungContent
          (downloadCsv (env.csvNet (prevDateUrl tpl td)) dl.retryDelay
            dl.maxRetries).result with
      | some s => simp [h1, h2, Option.orElse]
      | none =>
        cases h3 : zipRungContent (env.zipNet archiveUrl (fpat.getD "")) with
        | some s => simp [h1, h2, h3, Option.orElse]
        | none =>
          cases h4 : zipRungContent
              (env.zipNet (prevArchiveUrl archiveUrl td) (fpat.getD "")) with
          | some s => simp [h1, h2, h3, h4, Option.orElse]
          | none => simp [h1, h2, h3, h4, Option.orElse]
  · simp only [downloadWithFallback, downloadWithFallback.fallbackArchive,
      hArch, pyTruthyStr, hA, hT, if_true, ne_eq, not_false_eq_true,
      decide_True]
    cases h1 : csvRungContent
        (downloadCsv (env.csvNet directUrl) dl.retryDelay dl.maxRetries).result with
    | some s => simp [h1]
    | none =>
      cases h2 : csvRungContent
          (downloadCsv (env.csvNet (prevDateUrl tpl td)) dl.retryDelay
            dl.maxRetries).result with
      | some s => simp [h1, h2]
      | none =>
        cases h3 : zipRungContent (env.zipNet archiveUrl (fpat.getD "")) with
        | some s => simp [h1, h2, h3]
        | none =>
          cases h4 : zipRungContent
              (env.zipNet (prevArchiveUrl archiveUrl td) (fpat.getD "")) with
          | some s => simp [h1, h2, h3, h4]
          | none => simp [h1, h2, h3, h4]

/-- Concrete network realizing the spec's ladder scenario: the direct and
previous-day URLs 404, the current-month archive is unreachable, the
previous-month archive yields content. -/
def ladderWitnessEnv : FallbackEnv :=
  ⟨fun _url _i => .httpError 404,
   fun url _pat => if url = "http://a/20251201/z.zip" then some "ZIPCSV"
                   else none⟩

/-- Witness for C1: in the scenario above the downloader attempts all
four rungs in order and returns the previous-month archive's content. -/
theorem C1_fallback_ladder_order_witness :
    downloadWithFallback ⟨3, 2, true⟩ ladderWitnessEnv
      "http://d/20260101.csv" (some "http://a/20260101/z.zip") (some "pat")
      (some ⟨2026, 1, 1⟩) (some "http://d/{YYYYMMDD}.csv") =
      (some "ZIPCSV",
       [.directCsv "http://d/20260101.csv",
        .directCsv "http://d/20251231.csv",
        .archiveZip "http://a/20260101/z.zip",
        .archiveZip "http://a/20251201/z.zip"]) := by
  have h := (C1_fallback_ladder_order ⟨3, 2, true⟩ ladderWitnessEnv
    "http://d/20260101.csv" "http://a/20260101/z.zip"
    "http://d/{YYYYMMDD}.csv" (some "pat") ⟨2026, 1, 1⟩ rfl (by decide)
    (by decide)).1
  rw [h]
  rfl

/-! ### C8: ancillary fan-out -/

/-- A `filterMap` and a `filter` agree in length when the function is
defined exactly where the predicate holds. -/
theorem length_filterMap_eq_length_filter {α β : Type} (f : α → Option β)
    (p : α → Bool) (h : ∀ a, (f a).isSome = p a) (l : List α) :
    (l.filterMap f).length = (l.filter p).length := by
  induction l with
  | nil => simp
  | cons a t ih =>
    have ha := h a
    cases hfa : f a with
    | some b =>
      rw [hfa] at ha
      simp only [Option.isSome_some] at ha
      simp [List.filterMap_cons, hfa, List.filter_cons, ← ha, ih]
    | none =>
      rw [hfa] at ha
      simp only [Option.isSome_none] at ha
      simp [List.filterMap_cons, hfa, List.filter_cons, ← ha, ih]

/-- A single input row with three of the five service-price columns
populated, one of them exactly zero. -/
def ancFanoutRow : AncRow :=
  ⟨some "WEST", 100,
   [("10 Min Spinning Reserve ($/MWHr)", some 5),
    ("10 Min Non-Synchronous Reserve ($/MWHr)", some 0),
    ("30 Min Operating Reserve ($/MWHr)", some 7),
    ("NYCA Regulation Capacity ($/MWHr)", none),
    ("NYCA Regulation Movement ($/MW)", none)]⟩

/-- An ancillary-services frame holding only `ancFanoutRow`. -/
def ancFanoutFrame : AncFrame :=
  ⟨["Time Stamp", "Name", "10 Min Spinning Reserve ($/MWHr)",
    "10 Min Non-Synchronous Reserve ($/MWHr)",
    "30 Min Operating Reserve ($/MWHr)",
    "NYCA Regulation Capacity ($/MWHr)",
    "NYCA Regulation Movement ($/MW)"], [ancFanoutRow]⟩

/-- C8: the ancillary transformer emits, per input row, one record per
service-price column that is present in the frame, non-null and non-zero
— hence at most 5 per row — each tagged with the service type of its
column and the market type derived from the report code (`realtime` for
P-6B, `dayahead` otherwise, in particular for P-5); a row with three
populated columns of which one is exactly zero yields exactly two
records. -/
theorem C8_ancillary_fanout (df : AncFrame) (code : String) (row : AncRow) :
    ((transformAncillaryServices df code).length =
      (df.rows.map (fun r => (qualifyingColumns df.columns r).length)).sum) ∧
    (qualifyingColumns df.columns row).length ≤ 5 ∧
    (∀ rec ∈ transformAncillaryServices df code,
      rec.market_type = (if code = "P-6B" then "realtime" else "dayahead") ∧
      rec.service_type ∈ serviceColumns.map Prod.snd) ∧
    (transformAncillaryServices ancFanoutFrame "P-6B").length = 2 ∧
    (transformAncillaryServices ancFanoutFrame "P-5").map
      AncOut.market_type = ["dayahead", "dayahead"] := by
  refine ⟨?_, ?_, ?_, by rfl, by rfl⟩
  · rw [transformAncillaryServices, List.length_flatMap]
    congr 1
    refine List.map_congr_left ?_
    intro r _
    simp only [Function.comp_apply]
    apply length_filterMap_eq_length_filter
    intro cs
    by_cases hc : cs.1 ∈ df.columns
    · cases hcell : cellGet r.cells cs.1 with
      | some price =>
        by_cases hz : price = 0 <;> simp [hc, hcell, hz]
      | none => simp [hc, hcell]
    · simp [hc]
  · calc (qualifyingColumns df.columns row).length
        ≤ serviceColumns.length := List.length_filter_le _ _
      _ = 5 := rfl
  · intro rec hrec
    rw [transformAncillaryServices, List.mem_flatMap] at hrec
    obtain ⟨r, _hr, hrec⟩ := hrec
    rw [List.mem_filterMap] at hrec
    obtain ⟨cs, hcs, hg⟩ := hrec
    by_cases hc : cs.1 ∈ df.columns
    · simp only [hc, if_true] at hg
      cases hcell : cellGet r.cells cs.1 with
      | some price =>
        rw [hcell] at hg
        by_cases hz : price = 0
        · simp [hz] at hg
        · simp only [ne_eq, hz, not_false_eq_true, if_true,
            Option.some.injEq] at hg
          subst hg
          exact ⟨rfl, List.mem_map_of_mem Prod.snd hcs⟩
      | none => rw [hcell] at hg; simp at hg
    · simp [hc] at hg

/-- Witness for C8: the fan-out equation at the concrete frame, and the
label property applied to a concrete emitted record. -/
theorem C8_ancillary_fanout_witness :
    ((transformAncillaryServices ancFanoutFrame "P-6B").length =
      (ancFanoutFrame.rows.map (fun r =>
        (qualifyingColumns ancFanoutFrame.columns r).length)).sum) ∧
    (((⟨100, "WEST", "realtime", "spinning_reserve", some 5⟩ : AncOut).market_type
        = (if "P-6B" = "P-6B" then "realtime" else "dayahead")) ∧
      (⟨100, "WEST", "realtime", "spinning_reserve", some 5⟩ : AncOut).service_type
        ∈ serviceColumns.map Prod.snd) :=
  ⟨(C8_ancillary_fanout ancFanoutFrame "P-6B" ancFanoutRow).1,
   (C8_ancillary_fanout ancFanoutFrame "P-6B" ancFanoutRow).2.2.1
     ⟨100, "WEST", "realtime", "spinning_reserve", some 5⟩ (by decide)⟩

/-! ### Helper lemmas about `updateFirst` -/

/-- `updateFirst` never changes the length. -/
theorem length_updateFirst {α : Type} (q : α → Bool) (f : α → α) :
    ∀ l : List α, (updateFirst q f l).length = l.length := by
  intro l
  induction l with
  | nil => rfl
  | cons a t ih =>
    by_cases hq : q a <;> simp [updateFirst, hq, ih]

/-- Elements of `updateFirst q f l` come from `l`, possibly through `f`. -/
theorem mem_updateFirst {α : Type} (q : α → Bool) (f : α → α) {w : α} :
    ∀ {l : List α}, w ∈ updateFirst q f l → w ∈ l ∨ ∃ x ∈ l, w = f x := by
  intro l
  induction l with
  | nil => intro h; cases h
  | cons a t ih =>
    intro h
    by_cases hq : q a
    · simp only [updateFirst, hq, if_true] at h
      rcases List.mem_cons.mp h with rfl | hwt
      · exact Or.inr ⟨a, List.mem_cons_self a t, rfl⟩
      · exact Or.inl (List.mem_cons_of_mem a hwt)
    · simp only [updateFirst, hq, if_false, Bool.false_eq_true] at h
      rcases List.mem_cons.mp h with rfl | hwt
      · exact Or.inl (List.mem_cons_self w t)
      · rcases ih hwt with h' | ⟨x, hx, hfx⟩
        · exact Or.inl (List.mem_cons_of_mem a h')
        · exact Or.inr ⟨x, List.mem_cons_of_mem a hx, hfx⟩

/-- Every element of `l` lands in `updateFirst q f l`, either unchanged or
through `f`. -/
theorem exists_mem_updateFirst {α : Type} (q : α → Bool) (f : α → α) {x : α} :
    ∀ {l : List α}, x ∈ l →
      x ∈ updateFirst q f l ∨ f x ∈ updateFirst q f l := by
  intro l
  induction l with
  | nil => intro h; cases h
  | cons a t ih =>
    intro h
    by_cases hq : q a
    · simp only [updateFirst, hq, if_true]
      rcases List.mem_cons.mp h with rfl | hxt
      · exact Or.inr (List.mem_cons_self _ _)
      · exact Or.inl (List.mem_cons_of_mem _ hxt)
    · simp only [updateFirst, hq, if_false, Bool.false_eq_true]
      rcases List.mem_cons.mp h with rfl | hxt
      · exact Or.inl (List.mem_cons_self _ _)
      · rcases ih hxt with h' | h'
        · exact Or.inl (List.mem_cons_of_mem _ h')
        · exact Or.inr (List.mem_cons_of_mem _ h')

/-- An element different from the first match survives `updateFirst`
unchanged. -/
theorem mem_updateFirst_of_ne {α : Type} (q : α → Bool) (f : α → α)
    {w z : α} : ∀ {l : List α}, w ∈ l → l.find? q = some z → w ≠ z →
      w ∈ updateFirst q f l := by
  intro l
  induction l with
  | nil => intro h; cases h
  | cons a t ih =>
    intro hw hfind hne
    by_cases hq : q a
    · rw [List.find?_cons_of_pos _ hq] at hfind
      have haz : a = z := by injection hfind
      rcases List.mem_cons.mp hw with rfl | hwt
      · exact absurd haz hne
      · simp only [updateFirst, hq, if_true]
        exact List.mem_cons_of_mem _ hwt
    · rw [List.find?_cons_of_neg _ hq] at hfind
      rcases List.mem_cons.mp hw with rfl | hwt
      · simp only [updateFirst, hq, if_false, Bool.false_eq_true]
        exact List.mem_cons_self _ _
      · simp only [updateFirst, hq, if_false, Bool.false_eq_true]
        exact List.mem_cons_of_mem _ (ih hwt hfind hne)

/-! ### C9: reference-entity maintenance -/

/-- The empty store, with all autoincrement counters at 1. -/
def db0 : Db :=
  ⟨[], [], [], [], [], [], [], 1, 1, 1, 1⟩

/-- C9 counterexample: the claim fails on the code in two ways.  (1) A
zone stored with point-id `0` does NOT count as having a point-id for
`elif ptid and not zone.ptid:` (Python truthiness), so its existing
point-id IS overwritten — here `0` becomes `7`.  (2) An `Interface` is
looked up and created by its name exactly as given, not uppercased —
`'abc'` persists as `'abc'`. -/
theorem C9_entity_maintenance_counterexample :
    (getOrCreateZone { db0 with zones := [⟨1, "A", some 0⟩], nextZoneId := 2 }
      "A" (some 7)).2.zones = [⟨1, "A", some 7⟩] ∧
    (getOrCreateInterface db0 "abc" none).1.name = "abc" ∧
    (getOrCreateInterface db0 "abc" none).1.name ≠ "ABC" := by
  refine ⟨by rfl, by rfl, by decide⟩

/-- C9 as amended: the writer resolves a Zone by uppercased name and an
Interface by its exact name; the identity fields (id, name) of every
existing entity — whatever its stored point-id — survive any
`get_or_create` call; an entity whose stored point-id is truthy keeps it
verbatim (never overwritten); and on a name hit the stored point-id is
filled exactly when the incoming one is truthy (non-null, non-zero) and
the stored one is falsy: with a falsy incoming point-id the store is
left completely unchanged, and with a truthy incoming one a falsy stored
point-id is replaced by it. -/
theorem C9_entity_maintenance_amended (db : Db) (name : String)
    (p : Option Int) (w : Zone) (v : Interface)
    (hw : w ∈ db.zones) (hv : v ∈ db.interfaces) :
    (getOrCreateZone db name p).1.name = pyUpper name ∧
    (getOrCreateInterface db name p).1.name = name ∧
    (∃ w', w' ∈ (getOrCreateZone db name p).2.zones ∧ w'.id = w.id ∧
      w'.name = w.name) ∧
    (∃ v', v' ∈ (getOrCreateInterface db name p).2.interfaces ∧
      v'.id = v.id ∧ v'.name = v.name) ∧
    (pyTruthyInt w.ptid = true →
      ∃ w', w' ∈ (getOrCreateZone db name p).2.zones ∧ w'.id = w.id ∧
        w'.name = w.name ∧ w'.ptid = w.ptid) ∧
    (pyTruthyInt v.point_id = true →
      ∃ v', v' ∈ (getOrCreateInterface db name p).2.interfaces ∧
        v'.id = v.id ∧ v'.name = v.name ∧ v'.point_id = v.point_id) ∧
    (∀ z, db.zones.find? (fun u => u.name == pyUpper name) = some z →
      (pyTruthyInt p = false → (getOrCreateZone db name p).2 = db) ∧
      (pyTruthyInt p = true → pyTruthyInt z.ptid = false →
        (getOrCreateZone db name p).1 = { z with ptid := p })) ∧
    (∀ z, db.interfaces.find? (fun u => u.name == name) = some z →
      (pyTruthyInt p = false → (getOrCreateInterface db name p).2 = db) ∧
      (pyTruthyInt p = true → pyTruthyInt z.point_id = false →
        (getOrCreateInterface db name p).1 = { z with point_id := p })) := by
  refine ⟨?_, ?_, ?_, ?_, ?_, ?_, ?_, ?_⟩
  · unfold getOrCreateZone
    cases hfind : db.zones.find? (fun z => z.name == pyUpper name) with
    | none => simp
    | some z =>
      have hz : z.name = pyUpper name := by
        have := List.find?_some hfind
        rwa [beq_iff_eq] at this
      by_cases hc : (pyTruthyInt p && !pyTruthyInt z.ptid) = true
      · simp [hc, hz]
      · rw [Bool.not_eq_true] at hc
        simp [hc, hz]
  · unfold getOrCreateInterface
    cases hfind : db.interfaces.find? (fun z => z.name == name) with
    | none => simp
    | some z =>
      have hz : z.name = name := by
        have := List.find?_some hfind
        rwa [beq_iff_eq] at this
      by_cases hc : (pyTruthyInt p && !pyTruthyInt z.point_id) = true
      · simp [hc, hz]
      · rw [Bool.not_eq_true] at hc
        simp [hc, hz]
  · unfold getOrCreateZone
    cases hfind : db.zones.find? (fun z => z.name == pyUpper name) with
    | none =>
      exact ⟨w, by simp [hw], rfl, rfl⟩
    | some z =>
      by_cases hc : (pyTruthyInt p && !pyTruthyInt z.ptid) = true
      · simp only [hc, if_true]
        rcases exists_mem_updateFirst (fun u => u.name == pyUpper name)
            (fun u => { u with ptid := p }) hw with h | h
        · exact ⟨w, h, rfl, rfl⟩
        · exact ⟨{ w with ptid := p }, h, rfl, rfl⟩
      · rw [Bool.not_eq_true] at hc
        exact ⟨w, by simp [hc, hw], rfl, rfl⟩
  · unfold getOrCreateInterface
    cases hfind : db.interfaces.find? (fun z => z.name == name) with
    | none =>
      exact ⟨v, by simp [hv], rfl, rfl⟩
    | some z =>
      by_cases hc : (pyTruthyInt p && !pyTruthyInt z.point_id) = true
      · simp only [hc, if_true]
        rcases exists_mem_updateFirst (fun u => u.name == name)
            (fun u => { u with point_id := p }) hv with h | h
        · exact ⟨v, h, rfl, rfl⟩
        · exact ⟨{ v with point_id := p }, h, rfl, rfl⟩
      · rw [Bool.not_eq_true] at hc
        exact ⟨v, by simp [hc, hv], rfl, rfl⟩
  · intro hwp
    unfold getOrCreateZone
    cases hfind : db.zones.find? (fun z => z.name == pyUpper name) with
    | none =>
      exact ⟨w, by simp [hw], rfl, rfl, rfl⟩
    | some z =>
      by_cases hc : (pyTruthyInt p && !pyTruthyInt z.ptid) = true
      · have hwz : w ≠ z := by
          intro h
          have hz2 := (Bool.and_eq_true _ _).mp hc |>.2
          rw [Bool.not_eq_true'] at hz2
          rw [h] at hwp
          rw [hwp] at hz2
          cases hz2
        refine ⟨w, ?_, rfl, rfl, rfl⟩
        simp only [hc, if_true]
        exact mem_updateFirst_of_ne _ _ hw hfind hwz
      · rw [Bool.not_eq_true] at hc
        exact ⟨w, by simp [hc, hw], rfl, rfl, rfl⟩
  · intro hvp
    unfold getOrCreateInterface
    cases hfind : db.interfaces.find? (fun z => z.name == name) with
    | none =>
      exact ⟨v, by simp [hv], rfl, rfl, rfl⟩
    | some z =>
      by_cases hc : (pyTruthyInt p && !pyTruthyInt z.point_id) = true
      · have hvz : v ≠ z := by
          intro h
          have hz2 := (Bool.and_eq_true _ _).mp hc |>.2
          rw [Bool.not_eq_true'] at hz2
          rw [h] at hvp
          rw [hvp] at hz2
          cases hz2
        refine ⟨v, ?_, rfl, rfl, rfl⟩
        simp only [hc, if_true]
        exact mem_updateFirst_of_ne _ _ hv hfind hvz
      · rw [Bool.not_eq_true] at hc
        exact ⟨v, by simp [hc, hv], rfl, rfl, rfl⟩
  · intro z hfind
    refine ⟨?_, ?_⟩
    · intro hp
      simp [getOrCreateZone, hfind, hp]
    · intro hp hz
      simp [getOrCreateZone, hfind, hp, hz]
  · intro z hfind
    refine ⟨?_, ?_⟩
    · intro hp
      simp [getOrCreateInterface, hfind, hp]
    · intro hp hz
      simp [getOrCreateInterface, hfind, hp, hz]

/-- Store for the C9 witness: one zone and one interface, both with
truthy point-ids. -/
def c9WitnessDb : Db :=
  { db0 with zones := [⟨1, "WEST", some 61752⟩], interfaces := [⟨1, "abc", some 5⟩], nextZoneId := 2, nextInterfaceId := 2 }

/-- Store for the C9 fill witness: a zone and an interface with no stored
point-id. -/
def c9FillDb : Db :=
  { db0 with zones := [⟨1, "A", none⟩], interfaces := [⟨1, "i", none⟩], nextZoneId := 2, nextInterfaceId := 2 }

/-- Witness for C9 as amended: truthy stored point-ids survive a resolve
under a new point-id; a falsy incoming point-id leaves the store
untouched on a name hit; and a truthy incoming point-id fills a missing
stored one. -/
theorem C9_entity_maintenance_amended_witness :
    ((getOrCreateZone c9WitnessDb "west" (some 9)).1.name = pyUpper "west") ∧
    ((getOrCreateInterface c9WitnessDb "west" (some 9)).1.name = "west") ∧
    (∃ w', w' ∈ (getOrCreateZone c9WitnessDb "west" (some 9)).2.zones ∧
      w'.id = (⟨1, "WEST", some 61752⟩ : Zone).id ∧
      w'.name = (⟨1, "WEST", some 61752⟩ : Zone).name ∧
      w'.ptid = (⟨1, "WEST", some 61752⟩ : Zone).ptid) ∧
    (∃ v', v' ∈ (getOrCreateInterface c9WitnessDb "abc" (some 9)).2.interfaces ∧
      v'.id = (⟨1, "abc", some 5⟩ : Interface).id ∧
      v'.name = (⟨1, "abc", some 5⟩ : Interface).name ∧
      v'.point_id = (⟨1, "abc", some 5⟩ : Interface).point_id) ∧
    ((getOrCreateZone c9WitnessDb "west" none).2 = c9WitnessDb) ∧
    ((getOrCreateInterface c9WitnessDb "abc" none).2 = c9WitnessDb) ∧
    ((getOrCreateZone c9FillDb "a" (some 7)).1 = ⟨1, "A", some 7⟩) ∧
    ((getOrCreateInterface c9FillDb "i" (some 7)).1 = ⟨1, "i", some 7⟩) := by
  have h1 := C9_entity_maintenance_amended c9WitnessDb "west" (some 9)
    ⟨1, "WEST", some 61752⟩ ⟨1, "abc", some 5⟩ (by decide) (by decide)
  have h2 := C9_entity_maintenance_amended c9WitnessDb "abc" (some 9)
    ⟨1, "WEST", some 61752⟩ ⟨1, "abc", some 5⟩ (by decide) (by decide)
  have h3 := C9_entity_maintenance_amended c9WitnessDb "west" none
    ⟨1, "WEST", some 61752⟩ ⟨1, "abc", some 5⟩ (by decide) (by decide)
  have h4 := C9_entity_maintenance_amended c9WitnessDb "abc" none
    ⟨1, "WEST", some 61752⟩ ⟨1, "abc", some 5⟩ (by decide) (by decide)
  have h5 := C9_entity_maintenance_amended c9FillDb "a" (some 7)
    ⟨1, "A", none⟩ ⟨1, "i", none⟩ (by decide) (by decide)
  have h6 := C9_entity_maintenance_amended c9FillDb "i" (some 7)
    ⟨1, "A", none⟩ ⟨1, "i", none⟩ (by decide) (by decide)
  exact ⟨h1.1, h1.2.1,
    h1.2.2.2.2.1 (by decide),
    h2.2.2.2.2.2.1 (by decide),
    (h3.2.2.2.2.2.2.1 ⟨1, "WEST", some 61752⟩ (by rfl)).1 (by decide),
    (h4.2.2.2.2.2.2.2 ⟨1, "abc", some 5⟩ (by rfl)).1 (by decide),
    (h5.2.2.2.2.2.2.1 ⟨1, "A", none⟩ (by rfl)).2 (by decide) (by decide),
    (h6.2.2.2.2.2.2.2 ⟨1, "i", none⟩ (by rfl)).2 (by decide) (by decide)⟩

/-! ### C5: natural-key matching with discriminators -/

/-- A canonical ancillary record as the transformer emits it. -/
def mkAncRecord (ts : Int) (zn mt st : String) (p : Option Int) : Record :=
  ⟨some ts, some zn, none, none, none, none, some mt, some st, p⟩

/-- C5: two records that agree on timestamp and zone but differ in the
`market_type` discriminator persist as two distinct rows (both inserted);
two records identical in all natural-key fields and differing only in the
mutable `price` collapse to one row holding the price written last. -/
theorem C5_natural_key_discriminators (ts : Int) (zn mt1 mt2 st : String)
    (p1 p2 : Option Int) (hmt : mt1 ≠ mt2) :
    (∃ db, upsertAncillaryServices
        [mkAncRecord ts zn mt1 st p1, mkAncRecord ts zn mt2 st p2] db0 =
        .ok (db, 2, 0) ∧
      db.ancillary = [⟨ts, 1, mt1, st, p1⟩, ⟨ts, 1, mt2, st, p2⟩]) ∧
    (∃ db, upsertAncillaryServices
        [mkAncRecord ts zn mt1 st p1, mkAncRecord ts zn mt1 st p2] db0 =
        .ok (db, 1, 1) ∧
      db.ancillary = [⟨ts, 1, mt1, st, p2⟩]) := by
  constructor
  · refine ⟨{ db0 with zones := [⟨1, pyUpper zn, none⟩], ancillary := [⟨ts, 1, mt1, st, p1⟩, ⟨ts, 1, mt2, st, p2⟩], nextZoneId := 2 }, ?_, ?_⟩ <;>
      simp [upsertAncillaryServices, getOrCreateZone, ancKeyIs, mkAncRecord,
        ancUpdateStep, ancInsertStep, updateFirst, pyTruthyInt, db0, hmt]
  · refine ⟨{ db0 with zones := [⟨1, pyUpper zn, none⟩], ancillary := [⟨ts, 1, mt1, st, p2⟩], nextZoneId := 2 }, ?_, ?_⟩ <;>
      simp [upsertAncillaryServices, getOrCreateZone, ancKeyIs, mkAncRecord,
        ancUpdateStep, ancInsertStep, updateFirst, pyTruthyInt, db0]

/-- Witness for C5 at a concrete zone, timestamp, the two market types and
two prices. -/
theorem C5_natural_key_discriminators_witness :
    (∃ db, upsertAncillaryServices
        [mkAncRecord 300 "west" "realtime" "spinning_reserve" (some 3),
         mkAncRecord 300 "west" "dayahead" "spinning_reserve" (some 4)] db0 =
        .ok (db, 2, 0) ∧
      db.ancillary = [⟨300, 1, "realtime", "spinning_reserve", some 3⟩,
                      ⟨300, 1, "dayahead", "spinning_reserve", some 4⟩]) ∧
    (∃ db, upsertAncillaryServices
        [mkAncRecord 300 "west" "realtime" "spinning_reserve" (some 3),
         mkAncRecord 300 "west" "realtime" "spinning_reserve" (some 4)] db0 =
        .ok (db, 1, 1) ∧
      db.ancillary = [⟨300, 1, "realtime", "spinning_reserve", some 4⟩]) :=
  C5_natural_key_discriminators 300 "west" "realtime" "dayahead"
    "spinning_reserve" (some 3) (some 4) (by decide)

/-! ### C4: upsert idempotence

The key invariant: once a record's natural key is present (its zone name
resolves to a zone id and a fact row with that key exists), every further
upsert step keeps it present, and a record whose key is present takes the
update path — no insert, no length change. -/

/-- The id of the first zone matching an uppercased name (what
`session.query(Zone).filter(Zone.name == name.upper()).first()` keys
rows by). -/
def zoneIdOn (zs : List Zone) (zn : String) : Option Nat :=
  (zs.find? (fun z => z.name == pyUpper zn)).map Zone.id

/-- Record `r`'s real-time-LBMP natural key resolves in `db` and a row
with that key exists. -/
def rtKeyPresent (r : Record) (db : Db) : Prop :=
  ∃ zn ts zid, r.zone_name = some zn ∧ r.timestamp = some ts ∧
    zoneIdOn db.zones zn = some zid ∧
    ∃ row ∈ db.rtLbmp, rtKeyIs ts zid row = true

/-- Record `r`'s ancillary-services natural key resolves in `db` and a
row with that key exists. -/
def ancKeyPresent (r : Record) (db : Db) : Prop :=
  ∃ zn ts mt zid, r.zone_name = some zn ∧ r.timestamp = some ts ∧
    r.market_type = some mt ∧ zoneIdOn db.zones zn = some zid ∧
    ∃ row ∈ db.ancillary,
      ancKeyIs ts zid mt (r.service_type.getD "regulation") row = true

/-- Appending zones does not disturb an existing resolution. -/
theorem zoneIdOn_append {zs : List Zone} {zn : String} {zid : Nat}
    (l : List Zone) (h : zoneIdOn zs zn = some zid) :
    zoneIdOn (zs ++ l) zn = some zid := by
  unfold zoneIdOn at h ⊢
  cases hf : zs.find? (fun z => z.name == pyUpper zn) with
  | none => rw [hf] at h; cases h
  | some z =>
    rw [hf] at h
    rw [List.find?_append, hf]
    exact h

/-- A ptid-only update of one zone does not disturb any resolution. -/
theorem zoneIdOn_updateFirst_ptid (q : Zone → Bool) (v : Option Int)
    (zn : String) :
    ∀ zs : List Zone,
      zoneIdOn (updateFirst q (fun w => { w with ptid := v }) zs) zn =
        zoneIdOn zs zn := by
  intro zs
  induction zs with
  | nil => rfl
  | cons a t ih =>
    unfold updateFirst
    by_cases hq : q a
    · simp only [hq, if_true]
      unfold zoneIdOn
      rw [List.find?_cons, List.find?_cons]
      by_cases ha : (a.name == pyUpper zn) = true
      · simp [ha]
      · rw [Bool.not_eq_true] at ha
        simp [ha]
    · simp only [hq, if_false, Bool.false_eq_true]
      unfold zoneIdOn
      rw [List.find?_cons, List.find?_cons]
      by_cases ha : (a.name == pyUpper zn) = true
      · simp [ha]
      · rw [Bool.not_eq_true] at ha
        simp only [ha]
        exact ih

/-- `get_or_create_zone` touches no fact table. -/
theorem getOrCreateZone_facts (db : Db) (n : String) (p : Option Int) :
    (getOrCreateZone db n p).2.rtLbmp = db.rtLbmp ∧
    (getOrCreateZone db n p).2.ancillary = db.ancillary := by
  cases hf : db.zones.find? (fun z => z.name == pyUpper n) with
  | none => simp only [getOrCreateZone, hf]; constructor <;> trivial
  | some z =>
    simp only [getOrCreateZone, hf]
    by_cases hc : (pyTruthyInt p && !pyTruthyInt z.ptid) = true
    · simp only [hc, if_true]; constructor <;> trivial
    · simp only [hc, if_false, Bool.false_eq_true]; constructor <;> trivial

/-- `get_or_create_zone` preserves every existing resolution. -/
theorem zoneIdOn_getOrCreateZone (db : Db) (n : String) (p : Option Int)
    {m : String} {zid : Nat} (h : zoneIdOn db.zones m = some zid) :
    zoneIdOn (getOrCreateZone db n p).2.zones m = some zid := by
  cases hf : db.zones.find? (fun z => z.name == pyUpper n) with
  | none =>
    simp only [getOrCreateZone, hf]
    exact zoneIdOn_append _ h
  | some z =>
    simp only [getOrCreateZone, hf]
    by_cases hc : (pyTruthyInt p && !pyTruthyInt z.ptid) = true
    · simp only [hc, if_true]
      rw [zoneIdOn_updateFirst_ptid]
      exact h
    · simp only [hc, if_false, Bool.false_eq_true]
      exact h

/-- After `get_or_create_zone`, the requested name resolves to the id of
the returned zone. -/
theorem zoneIdOn_getOrCreateZone_self (db : Db) (n : String)
    (p : Option Int) :
    zoneIdOn (getOrCreateZone db n p).2.zones n =
      some (getOrCreateZone db n p).1.id := by
  cases hf : db.zones.find? (fun z => z.name == pyUpper n) with
  | none =>
    simp only [getOrCreateZone, hf]
    unfold zoneIdOn
    rw [List.find?_append, hf]
    simp
  | some z =>
    simp only [getOrCreateZone, hf]
    by_cases hc : (pyTruthyInt p && !pyTruthyInt z.ptid) = true
    · simp only [hc, if_true]
      rw [zoneIdOn_updateFirst_ptid]
      unfold zoneIdOn
      rw [hf]
      rfl
    · simp only [hc, if_false, Bool.false_eq_true]
      unfold zoneIdOn
      rw [hf]
      rfl

/-- When the name already resolves, `get_or_create_zone` returns a zone
with exactly that id. -/
theorem getOrCreateZone_id_of_resolved (db : Db) (n : String)
    (p : Option Int) {zid : Nat} (h : zoneIdOn db.zones n = some zid) :
    (getOrCreateZone db n p).1.id = zid := by
  unfold zoneIdOn at h
  cases hf : db.zones.find? (fun z => z.name == pyUpper n) with
  | none => rw [hf] at h; cases h
  | some z =>
    rw [hf] at h
    simp only [Option.map_some'] at h
    simp only [getOrCreateZone, hf]
    by_cases hc : (pyTruthyInt p && !pyTruthyInt z.ptid) = true
    · simp only [hc, if_true]
      exact Option.some_inj.mp h
    · simp only [hc, if_false, Bool.false_eq_true]
      exact Option.some_inj.mp h

/-- The update path leaves every row key unchanged, so it preserves key
presence. -/
theorem rtKeyPresent_updateStep (r r2 : Record) (ts : Int) (zid : Nat)
    (db : Db) (h : rtKeyPresent r db) :
    rtKeyPresent r (rtUpdateStep r2 ts zid db) := by
  obtain ⟨zn, ts0, zid0, h1, h2, h3, row, hrow, hkey⟩ := h
  refine ⟨zn, ts0, zid0, h1, h2, h3, ?_⟩
  rcases exists_mem_updateFirst (rtKeyIs ts zid) _ hrow with hm | hm
  · exact ⟨row, hm, hkey⟩
  · exact ⟨_, hm, hkey⟩

/-- The insert path only appends rows, so it preserves key presence. -/
theorem rtKeyPresent_insertStep (r r2 : Record) (ts : Int) (zid : Nat)
    (db : Db) (h : rtKeyPresent r db) :
    rtKeyPresent r (rtInsertStep r2 ts zid db) := by
  obtain ⟨zn, ts0, zid0, h1, h2, h3, row, hrow, hkey⟩ := h
  exact ⟨zn, ts0, zid0, h1, h2, h3, row, List.mem_append_left _ hrow, hkey⟩

/-- Zone resolution preserves key presence. -/
theorem rtKeyPresent_getOrCreateZone (r : Record) (db : Db) (n : String)
    (p : Option Int) (h : rtKeyPresent r db) :
    rtKeyPresent r (getOrCreateZone db n p).2 := by
  obtain ⟨zn, ts, zid, h1, h2, h3, row, hrow, hkey⟩ := h
  exact ⟨zn, ts, zid, h1, h2, zoneIdOn_getOrCreateZone db n p h3,
    row, by rw [(getOrCreateZone_facts db n p).1]; exact hrow, hkey⟩

/-- A successful run of `upsert_realtime_lbmp` preserves key presence. -/
theorem upsertRt_ok_preserves :
    ∀ (recs : List Record) (db db' : Db) (i u : Nat) (r : Record),
      upsertRealtimeLbmp recs db = .ok (db', i, u) →
      rtKeyPresent r db → rtKeyPresent r db' := by
  intro recs
  induction recs with
  | nil =>
    intro db db' i u r h hk
    simp only [upsertRealtimeLbmp, Except.ok.injEq, Prod.mk.injEq] at h
    rw [← h.1]
    exact hk
  | cons r2 rest ih =>
    intro db db' i u r h hk
    rw [upsertRealtimeLbmp] at h
    cases hzn : r2.zone_name with
    | none => simp only [hzn] at h; exact Except.noConfusion h
    | some zn =>
      simp only [hzn] at h
      rcases hgz : getOrCreateZone db zn r2.ptid with ⟨zone, db1⟩
      simp only [hgz] at h
      have hk1 : rtKeyPresent r db1 := by
        have := rtKeyPresent_getOrCreateZone r db zn r2.ptid hk
        rwa [hgz] at this
      cases hts : r2.timestamp with
      | none => simp only [hts] at h; exact Except.noConfusion h
      | some ts =>
        simp only [hts] at h
        cases hfind : db1.rtLbmp.find? (rtKeyIs ts zone.id) with
        | some row0 =>
          simp only [hfind] at h
          cases hrec : upsertRealtimeLbmp rest (rtUpdateStep r2 ts zone.id db1) with
          | error e => simp only [hrec] at h; exact Except.noConfusion h
          | ok out =>
            rcases out with ⟨db3, i3, u3⟩
            simp only [hrec, Except.ok.injEq, Prod.mk.injEq] at h
            rw [← h.1]
            exact ih (rtUpdateStep r2 ts zone.id db1) db3 i3 u3 r hrec
              (rtKeyPresent_updateStep r r2 ts zone.id db1 hk1)
        | none =>
          simp only [hfind] at h
          cases hrec : upsertRealtimeLbmp rest (rtInsertStep r2 ts zone.id db1) with
          | error e => simp only [hrec] at h; exact Except.noConfusion h
          | ok out =>
            rcases out with ⟨db3, i3, u3⟩
            simp only [hrec, Except.ok.injEq, Prod.mk.injEq] at h
            rw [← h.1]
            exact ih (rtInsertStep r2 ts zone.id db1) db3 i3 u3 r hrec
              (rtKeyPresent_insertStep r r2 ts zone.id db1 hk1)

/-- After a successful run of `upsert_realtime_lbmp`, every processed
record's natural key is present in the resulting store. -/
theorem upsertRt_ok_all_present :
    ∀ (recs : List Record) (db db' : Db) (i u : Nat),
      upsertRealtimeLbmp recs db = .ok (db', i, u) →
      ∀ r ∈ recs, rtKeyPresent r db' := by
  intro recs
  induction recs with
  | nil => intro db db' i u _h r hr; cases hr
  | cons r2 rest ih =>
    intro db db' i u h r hr
    rw [upsertRealtimeLbmp] at h
    cases hzn : r2.zone_name with
    | none => simp only [hzn] at h; exact Except.noConfusion h
    | some zn =>
      simp only [hzn] at h
      rcases hgz : getOrCreateZone db zn r2.ptid with ⟨zone, db1⟩
      simp only [hgz] at h
      cases hts : r2.timestamp with
      | none => simp only [hts] at h; exact Except.noConfusion h
      | some ts =>
        simp only [hts] at h
        have hself : zoneIdOn db1.zones zn = some zone.id := by
          have := zoneIdOn_getOrCreateZone_self db zn r2.ptid
          rwa [hgz] at this
        cases hfind : db1.rtLbmp.find? (rtKeyIs ts zone.id) with
        | some row0 =>
          simp only [hfind] at h
          cases hrec : upsertRealtimeLbmp rest (rtUpdateStep r2 ts zone.id db1) with
          | error e => simp only [hrec] at h; exact Except.noConfusion h
          | ok out =>
            rcases out with ⟨db3, i3, u3⟩
            simp only [hrec, Except.ok.injEq, Prod.mk.injEq] at h
            rw [← h.1]
            rcases List.mem_cons.mp hr with rfl | hr2
            · have hpres : rtKeyPresent r (rtUpdateStep r ts zone.id db1) := by
                refine ⟨zn, ts, zone.id, hzn, hts, hself, ?_⟩
                have hmem := List.mem_of_find?_eq_some hfind
                have hkey := List.find?_some hfind
                rcases exists_mem_updateFirst (rtKeyIs ts zone.id) _ hmem with
                  hm | hm
                · exact ⟨row0, hm, hkey⟩
                · exact ⟨_, hm, hkey⟩
              exact upsertRt_ok_preserves rest _ db3 i3 u3 r hrec hpres
            · exact ih _ db3 i3 u3 hrec r hr2
        | none =>
          simp only [hfind] at h
          cases hrec : upsertRealtimeLbmp rest (rtInsertStep r2 ts zone.id db1) with
          | error e => simp only [hrec] at h; exact Except.noConfusion h
          | ok out =>
            rcases out with ⟨db3, i3, u3⟩
            simp only [hrec, Except.ok.injEq, Prod.mk.injEq] at h
            rw [← h.1]
            rcases List.mem_cons.mp hr with rfl | hr2
            · have hpres : rtKeyPresent r (rtInsertStep r ts zone.id db1) := by
                refine ⟨zn, ts, zone.id, hzn, hts, hself, ?_⟩
                refine ⟨⟨ts, zone.id, r.ptid, r.lbmp, r.marginal_cost_losses,
                  r.marginal_cost_congestion⟩, ?_, ?_⟩
                · exact List.mem_append_right _ (List.mem_singleton.mpr rfl)
                · simp [rtKeyIs]
              exact upsertRt_ok_preserves rest _ db3 i3 u3 r hrec hpres
            · exact ih _ db3 i3 u3 hrec r hr2

/-- When every record's natural key is already present, a run of
`upsert_realtime_lbmp` succeeds with zero inserts, updates every record,
and leaves the fact table's row count unchanged. -/
theorem upsertRt_second_run :
    ∀ (recs : List Record) (db : Db), (∀ r ∈ recs, rtKeyPresent r db) →
      ∃ db', upsertRealtimeLbmp recs db = .ok (db', 0, recs.length) ∧
        db'.rtLbmp.length = db.rtLbmp.length := by
  intro recs
  induction recs with
  | nil => intro db _; exact ⟨db, rfl, rfl⟩
  | cons r rest ih =>
    intro db hall
    obtain ⟨zn, ts, zid, hzn, hts, hzod, row0, hrow0, hkey⟩ :=
      hall r (List.mem_cons_self r rest)
    rcases hgz : getOrCreateZone db zn r.ptid with ⟨zone, db1⟩
    have hzid : zone.id = zid := by
      have := getOrCreateZone_id_of_resolved db zn r.ptid hzod
      rwa [hgz] at this
    have hfacts : db1.rtLbmp = db.rtLbmp := by
      have := (getOrCreateZone_facts db zn r.ptid).1
      rwa [hgz] at this
    obtain ⟨row1, hfind⟩ : ∃ row1,
        db1.rtLbmp.find? (rtKeyIs ts zone.id) = some row1 := by
      apply Option.isSome_iff_exists.mp
      rw [hfacts, hzid]
      exact List.find?_isSome.mpr ⟨row0, hrow0, hkey⟩
    have hall2 : ∀ r' ∈ rest, rtKeyPresent r' (rtUpdateStep r ts zone.id db1) := by
      intro r' hr'
      apply rtKeyPresent_updateStep
      have := rtKeyPresent_getOrCreateZone r' db zn r.ptid
        (hall r' (List.mem_cons_of_mem _ hr'))
      rwa [hgz] at this
    obtain ⟨db3, hrec, hlen⟩ := ih (rtUpdateStep r ts zone.id db1) hall2
    refine ⟨db3, ?_, ?_⟩
    · rw [upsertRealtimeLbmp]
      simp only [hzn, hgz, hts, hfind, hrec, List.length_cons]
    · rw [hlen]
      show (updateFirst (rtKeyIs ts zone.id) _ db1.rtLbmp).length =
        db.rtLbmp.length
      rw [length_updateFirst, hfacts]

/-- The ancillary update path leaves every row key unchanged. -/
theorem ancKeyPresent_updateStep (r r2 : Record) (ts : Int) (zid : Nat)
    (mt st : String) (db : Db) (h : ancKeyPresent r db) :
    ancKeyPresent r (ancUpdateStep r2 ts zid mt st db) := by
  obtain ⟨zn, ts0, mt0, zid0, h1, h2, h3, h4, row, hrow, hkey⟩ := h
  refine ⟨zn, ts0, mt0, zid0, h1, h2, h3, h4, ?_⟩
  rcases exists_mem_updateFirst (ancKeyIs ts zid mt st) _ hrow with hm | hm
  · exact ⟨row, hm, hkey⟩
  · exact ⟨_, hm, hkey⟩

/-- The ancillary insert path only appends rows. -/
theorem ancKeyPresent_insertStep (r r2 : Record) (ts : Int) (zid : Nat)
    (mt st : String) (db : Db) (h : ancKeyPresent r db) :
    ancKeyPresent r (ancInsertStep r2 ts zid mt st db) := by
  obtain ⟨zn, ts0, mt0, zid0, h1, h2, h3, h4, row, hrow, hkey⟩ := h
  exact ⟨zn, ts0, mt0, zid0, h1, h2, h3, h4, row,
    List.mem_append_left _ hrow, hkey⟩

/-- Zone resolution preserves ancillary key presence. -/
theorem ancKeyPresent_getOrCreateZone (r : Record) (db : Db) (n : String)
    (p : Option Int) (h : ancKeyPresent r db) :
    ancKeyPresent r (getOrCreateZone db n p).2 := by
  obtain ⟨zn, ts, mt, zid, h1, h2, h3, h4, row, hrow, hkey⟩ := h
  exact ⟨zn, ts, mt, zid, h1, h2, h3, zoneIdOn_getOrCreateZone db n p h4,
    row, by rw [(getOrCreateZone_facts db n p).2]; exact hrow, hkey⟩

/-- A successful run of `upsert_ancillary_services` preserves key
presence. -/
theorem upsertAnc_ok_preserves :
    ∀ (recs : List Record) (db db' : Db) (i u : Nat) (r : Record),
      upsertAncillaryServices recs db = .ok (db', i, u) →
      ancKeyPresent r db → ancKeyPresent r db' := by
  intro recs
  induction recs with
  | nil =>
    intro db db' i u r h hk
    simp only [upsertAncillaryServices, Except.ok.injEq, Prod.mk.injEq] at h
    rw [← h.1]
    exact hk
  | cons r2 rest ih =>
    intro db db' i u r h hk
    rw [upsertAncillaryServices] at h
    cases hzn : r2.zone_name with
    | none => simp only [hzn] at h; exact Except.noConfusion h
    | some zn =>
      simp only [hzn] at h
      rcases hgz : getOrCreateZone db zn none with ⟨zone, db1⟩
      simp only [hgz] at h
      have hk1 : ancKeyPresent r db1 := by
        have := ancKeyPresent_getOrCreateZone r db zn none hk
        rwa [hgz] at this
      cases hts : r2.timestamp with
      | none => simp only [hts] at h; exact Except.noConfusion h
      | some ts =>
        simp only [hts] at h
        cases hmt : r2.market_type with
        | none => simp only [hmt] at h; exact Except.noConfusion h
        | some mt =>
          simp only [hmt] at h
          cases hfind : db1.ancillary.find?
              (ancKeyIs ts zone.id mt (r2.service_type.getD "regulation")) with
          | some row0 =>
            simp only [hfind] at h
            cases hrec : upsertAncillaryServices rest
                (ancUpdateStep r2 ts zone.id mt
                  (r2.service_type.getD "regulation") db1) with
            | error e => simp only [hrec] at h; exact Except.noConfusion h
            | ok out =>
              rcases out with ⟨db3, i3, u3⟩
              simp only [hrec, Except.ok.injEq, Prod.mk.injEq] at h
              rw [← h.1]
              exact ih _ db3 i3 u3 r hrec
                (ancKeyPresent_updateStep r r2 ts zone.id mt _ db1 hk1)
          | none =>
            simp only [hfind] at h
            cases hrec : upsertAncillaryServices rest
                (ancInsertStep r2 ts zone.id mt
                  (r2.service_type.getD "regulation") db1) with
            | error e => simp only [hrec] at h; exact Except.noConfusion h
            | ok out =>
              rcases out with ⟨db3, i3, u3⟩
              simp only [hrec, Except.ok.injEq, Prod.mk.injEq] at h
              rw [← h.1]
              exact ih _ db3 i3 u3 r hrec
                (ancKeyPresent_insertStep r r2 ts zone.id mt _ db1 hk1)

/-- After a successful run of `upsert_ancillary_services`, every processed
record's natural key is present in the resulting store. -/
theorem upsertAnc_ok_all_present :
    ∀ (recs : List Record) (db db' : Db) (i u : Nat),
      upsertAncillaryServices recs db = .ok (db', i, u) →
      ∀ r ∈ recs, ancKeyPresent r db' := by
  intro recs
  induction recs with
  | nil => intro db db' i u _h r hr; cases hr
  | cons r2 rest ih =>
    intro db db' i u h r hr
    rw [upsertAncillaryServices] at h
    cases hzn : r2.zone_name with
    | none => simp only [hzn] at h; exact Except.noConfusion h
    | some zn =>
      simp only [hzn] at h
      rcases hgz : getOrCreateZone db zn none with ⟨zone, db1⟩
      simp only [hgz] at h
      cases hts : r2.timestamp with
      | none => simp only [hts] at h; exact Except.noConfusion h
      | some ts =>
        simp only [hts] at h
        cases hmt : r2.market_type with
        | none => simp only [hmt] at h; exact Except.noConfusion h
        | some mt =>
          simp only [hmt] at h
          have hself : zoneIdOn db1.zones zn = some zone.id := by
            have := zoneIdOn_getOrCreateZone_self db zn none
            rwa [hgz] at this
          cases hfind : db1.ancillary.find?
              (ancKeyIs ts zone.id mt (r2.service_type.getD "regulation")) with
          | some row0 =>
            simp only [hfind] at h
            cases hrec : upsertAncillaryServices rest
                (ancUpdateStep r2 ts zone.id mt
                  (r2.service_type.getD "regulation") db1) with
            | error e => simp only [hrec] at h; exact Except.noConfusion h
            | ok out =>
              rcases out with ⟨db3, i3, u3⟩
              simp only [hrec, Except.ok.injEq, Prod.mk.injEq] at h
              rw [← h.1]
              rcases List.mem_cons.mp hr with rfl | hr2
              · have hpres : ancKeyPresent r
                    (ancUpdateStep r ts zone.id mt
                      (r.service_type.getD "regulation") db1) := by
                  refine ⟨zn, ts, mt, zone.id, hzn, hts, hmt, hself, ?_⟩
                  have hmem := List.mem_of_find?_eq_some hfind
                  have hkey := List.find?_some hfind
                  rcases exists_mem_updateFirst
                      (ancKeyIs ts zone.id mt (r.service_type.getD "regulation"))
                      _ hmem with hm | hm
                  · exact ⟨row0, hm, hkey⟩
                  · exact ⟨_, hm, hkey⟩
                exact upsertAnc_ok_preserves rest _ db3 i3 u3 r hrec hpres
              · exact ih _ db3 i3 u3 hrec r hr2
          | none =>
            simp only [hfind] at h
            cases hrec : upsertAncillaryServices rest
                (ancInsertStep r2 ts zone.id mt
                  (r2.service_type.getD "regulation") db1) with
            | error e => simp only [hrec] at h; exact Except.noConfusion h
            | ok out =>
              rcases out with ⟨db3, i3, u3⟩
              simp only [hrec, Except.ok.injEq, Prod.mk.injEq] at h
              rw [← h.1]
              rcases List.mem_cons.mp hr with rfl | hr2
              · have hpres : ancKeyPresent r
                    (ancInsertStep r ts zone.id mt
                      (r.service_type.getD "regulation") db1) := by
                  refine ⟨zn, ts, mt, zone.id, hzn, hts, hmt, hself, ?_⟩
                  refine ⟨⟨ts, zone.id, mt, r.service_type.getD "regulation",
                    r.price⟩, ?_, ?_⟩
                  · exact List.mem_append_right _ (List.mem_singleton.mpr rfl)
                  · simp [ancKeyIs]
                exact upsertAnc_ok_preserves rest _ db3 i3 u3 r hrec hpres
              · exact ih _ db3 i3 u3 hrec r hr2

/-- When every record's natural key is already present, a run of
`upsert_ancillary_services` succeeds with zero inserts, updates every
record, and leaves the fact table's row count unchanged. -/
theorem upsertAnc_second_run :
    ∀ (recs : List Record) (db : Db), (∀ r ∈ recs, ancKeyPresent r db) →
      ∃ db', upsertAncillaryServices recs db = .ok (db', 0, recs.length) ∧
        db'.ancillary.length = db.ancillary.length := by
  intro recs
  induction recs with
  | nil => intro db _; exact ⟨db, rfl, rfl⟩
  | cons r rest ih =>
    intro db hall
    obtain ⟨zn, ts, mt, zid, hzn, hts, hmt, hzod, row0, hrow0, hkey⟩ :=
      hall r (List.mem_cons_self r rest)
    rcases hgz : getOrCreateZone db zn none with ⟨zone, db1⟩
    have hzid : zone.id = zid := by
      have := getOrCreateZone_id_of_resolved db zn none hzod
      rwa [hgz] at this
    have hfacts : db1.ancillary = db.ancillary := by
      have := (getOrCreateZone_facts db zn none).2
      rwa [hgz] at this
    obtain ⟨row1, hfind⟩ : ∃ row1,
        db1.ancillary.find?
          (ancKeyIs ts zone.id mt (r.service_type.getD "regulation")) =
          some row1 := by
      apply Option.isSome_iff_exists.mp
      rw [hfacts, hzid]
      exact List.find?_isSome.mpr ⟨row0, hrow0, hkey⟩
    have hall2 : ∀ r' ∈ rest, ancKeyPresent r'
        (ancUpdateStep r ts zone.id mt
          (r.service_type.getD "regulation") db1) := by
      intro r' hr'
      apply ancKeyPresent_updateStep
      have := ancKeyPresent_getOrCreateZone r' db zn none
        (hall r' (List.mem_cons_of_mem _ hr'))
      rwa [hgz] at this
    obtain ⟨db3, hrec, hlen⟩ := ih _ hall2
    refine ⟨db3, ?_, ?_⟩
    · rw [upsertAncillaryServices]
      simp only [hzn, hgz, hts, hmt, hfind, hrec, List.length_cons]
    · rw [hlen]
      show (updateFirst (ancKeyIs ts zone.id mt _) _ db1.ancillary).length =
        db.ancillary.length
      rw [length_updateFirst, hfacts]

/-- C4: row-level idempotence of the upsert through `write_records`.  If
one call wrote a record set successfully, a second call with the identical
records succeeds with zero inserts, counts every record as an
update-in-place, and leaves the fact table's total row count unchanged —
for both modelled fact families: real-time LBMP (`'P-24A'`) and ancillary
services (`'P-6B'`, whose dispatch `'P-5'` shares). -/
theorem C4_upsert_idempotent (records : List Record)
    (sess sessA sessB : Session) (iA uA iB uB : Nat) :
    (writeRecords records "P-24A" sess = (sessA, .ok (iA, uA)) →
      ∃ sess2, writeRecords records "P-24A" sessA =
          (sess2, .ok (0, records.length)) ∧
        sess2.committed.rtLbmp.length = sessA.committed.rtLbmp.length) ∧
    (writeRecords records "P-6B" sess = (sessB, .ok (iB, uB)) →
      ∃ sess2, writeRecords records "P-6B" sessB =
          (sess2, .ok (0, records.length)) ∧
        sess2.committed.ancillary.length =
          sessB.committed.ancillary.length) ∧
    dispatchUpsert "P-5" = dispatchUpsert "P-6B" := by
  refine ⟨?_, ?_, by rfl⟩
  · intro h
    simp only [writeRecords, dispatchUpsert, if_pos] at h
    cases hup : upsertRealtimeLbmp records sess.pending with
    | error e =>
      rcases e with ⟨e, dbe⟩
      simp only [hup, Prod.mk.injEq] at h
      exact Except.noConfusion h.2
    | ok out =>
      rcases out with ⟨db', i, u⟩
      simp only [hup, Prod.mk.injEq, Session.commit] at h
      obtain ⟨h1, h2⟩ := h
      have hall := upsertRt_ok_all_present records sess.pending db' i u hup
      obtain ⟨db2, hrun, hlen⟩ := upsertRt_second_run records db' hall
      refine ⟨Session.commit ⟨sessA.committed, db2⟩, ?_, ?_⟩
      · simp only [writeRecords, dispatchUpsert, if_pos]
        rw [← h1]
        simp only [hrun]
      · rw [← h1]
        simpa [Session.commit] using hlen
  · intro h
    simp only [writeRecords, dispatchUpsert] at h
    rw [if_neg (by decide), if_pos (by decide)] at h
    cases hup : upsertAncillaryServices records sess.pending with
    | error e =>
      rcases e with ⟨e, dbe⟩
      simp only [hup, Prod.mk.injEq] at h
      exact Except.noConfusion h.2
    | ok out =>
      rcases out with ⟨db', i, u⟩
      simp only [hup, Prod.mk.injEq, Session.commit] at h
      obtain ⟨h1, h2⟩ := h
      have hall := upsertAnc_ok_all_present records sess.pending db' i u hup
      obtain ⟨db2, hrun, hlen⟩ := upsertAnc_second_run records db' hall
      refine ⟨Session.commit ⟨sessB.committed, db2⟩, ?_, ?_⟩
      · simp only [writeRecords, dispatchUpsert]
        rw [if_neg (by decide), if_pos (by decide), ← h1]
        simp only [hrun]
      · rw [← h1]
        simpa [Session.commit] using hlen

/-- Record set and resulting sessions for the C4 witness. -/
def c4RtRecs : List Record :=
  [⟨some 10, some "west", none, some 5, none, none, none, none, none⟩]

/-- Store after the first real-time-LBMP write of the C4 witness. -/
def c4RtDb1 : Db :=
  { db0 with zones := [⟨1, "WEST", none⟩], rtLbmp := [⟨10, 1, none, some 5, none, none⟩], nextZoneId := 2 }

/-- Ancillary record set for the C4 witness. -/
def c4AncRecs : List Record :=
  [mkAncRecord 300 "west" "realtime" "spinning_reserve" (some 3)]

/-- Store after the first ancillary write of the C4 witness. -/
def c4AncDb1 : Db :=
  { db0 with zones := [⟨1, "WEST", none⟩], ancillary := [⟨300, 1, "realtime", "spinning_reserve", some 3⟩], nextZoneId := 2 }

/-- Witness for C4: one concrete record per family, written once, then
re-written idempotently. -/
theorem C4_upsert_idempotent_witness :
    (∃ sess2, writeRecords c4RtRecs "P-24A" ⟨c4RtDb1, c4RtDb1⟩ =
        (sess2, .ok (0, c4RtRecs.length)) ∧
      sess2.committed.rtLbmp.length =
        (⟨c4RtDb1, c4RtDb1⟩ : Session).committed.rtLbmp.length) ∧
    (∃ sess2, writeRecords c4AncRecs "P-6B" ⟨c4AncDb1, c4AncDb1⟩ =
        (sess2, .ok (0, c4AncRecs.length)) ∧
      sess2.committed.ancillary.length =
        (⟨c4AncDb1, c4AncDb1⟩ : Session).committed.ancillary.length) :=
  ⟨(C4_upsert_idempotent c4RtRecs ⟨db0, db0⟩ ⟨c4RtDb1, c4RtDb1⟩
      ⟨c4AncDb1, c4AncDb1⟩ 1 0 1 0).1 (by rfl),
   (C4_upsert_idempotent c4AncRecs ⟨db0, db0⟩ ⟨c4RtDb1, c4RtDb1⟩
      ⟨c4AncDb1, c4AncDb1⟩ 1 0 1 0).2.1 (by rfl)⟩

/-! ### Job bookkeeping lemmas (used by C6, C7, C10)

Autoincrement primary keys make the freshly created job row's id distinct
from every existing row's id, so the scraper's later in-place mutations of
that row hit exactly it. -/

/-- `updateFirst` on an appended fresh element only rewrites that
element. -/
theorem updateFirst_append_of_fresh {α : Type} (q : α → Bool) (f : α → α)
    {x : α} (hx : q x = true) :
    ∀ {l : List α}, (∀ a ∈ l, q a = false) →
      updateFirst q f (l ++ [x]) = l ++ [f x] := by
  intro l
  induction l with
  | nil => intro _; simp [updateFirst, hx]
  | cons a t ih =>
    intro h
    have ha := h a (List.mem_cons_self a t)
    simp only [List.cons_append, updateFirst, ha, if_false,
      Bool.false_eq_true, List.cons.injEq, true_and]
    exact ih (fun b hb => h b (List.mem_cons_of_mem a hb))

/-- `find?` on an appended fresh element finds exactly it. -/
theorem find?_append_of_fresh {α : Type} (q : α → Bool) {x : α}
    (hx : q x = true) :
    ∀ {l : List α}, (∀ a ∈ l, q a = false) →
      (l ++ [x]).find? q = some x := by
  intro l
  induction l with
  | nil => intro _; simp [List.find?_cons, hx]
  | cons a t ih =>
    intro h
    have ha := h a (List.mem_cons_self a t)
    rw [List.cons_append, List.find?_cons_of_neg _ (by simp [ha])]
    exact ih (fun b hb => h b (List.mem_cons_of_mem a hb))

/-- A successful `upsert_realtime_lbmp` run never touches the job table. -/
theorem upsertRt_jobs_ok :
    ∀ (recs : List Record) (db db' : Db) (i u : Nat),
      upsertRealtimeLbmp recs db = .ok (db', i, u) → db'.jobs = db.jobs := by
  intro recs
  induction recs with
  | nil =>
    intro db db' i u h
    simp only [upsertRealtimeLbmp, Except.ok.injEq, Prod.mk.injEq] at h
    rw [← h.1]
  | cons r2 rest ih =>
    intro db db' i u h
    rw [upsertRealtimeLbmp] at h
    cases hzn : r2.zone_name with
    | none => simp only [hzn] at h; exact Except.noConfusion h
    | some zn =>
      simp only [hzn] at h
      rcases hgz : getOrCreateZone db zn r2.ptid with ⟨zone, db1⟩
      simp only [hgz] at h
      have hjobs1 : db1.jobs = db.jobs := by
        cases hf : db.zones.find? (fun z => z.name == pyUpper zn) with
        | none =>
          simp only [getOrCreateZone, hf] at hgz
          rw [← (Prod.mk.injEq _ _ _ _).mp hgz |>.2]
        | some z =>
          simp only [getOrCreateZone, hf] at hgz
          by_cases hc : (pyTruthyInt r2.ptid && !pyTruthyInt z.ptid) = true
          · simp only [hc, if_true] at hgz
            rw [← (Prod.mk.injEq _ _ _ _).mp hgz |>.2]
          · simp only [hc, if_false, Bool.false_eq_true] at hgz
            rw [← (Prod.mk.injEq _ _ _ _).mp hgz |>.2]
      cases hts : r2.timestamp with
      | none => simp only [hts] at h; exact Except.noConfusion h
      | some ts =>
        simp only [hts] at h
        cases hfind : db1.rtLbmp.find? (rtKeyIs ts zone.id) with
        | some row0 =>
          simp only [hfind] at h
          cases hrec : upsertRealtimeLbmp rest (rtUpdateStep r2 ts zone.id db1) with
          | error e => simp only [hrec] at h; exact Except.noConfusion h
          | ok out =>
            rcases out with ⟨db3, i3, u3⟩
            simp only [hrec, Except.ok.injEq, Prod.mk.injEq] at h
            rw [← h.1, ih _ db3 i3 u3 hrec]
            exact hjobs1
        | none =>
          simp only [hfind] at h
          cases hrec : upsertRealtimeLbmp rest (rtInsertStep r2 ts zone.id db1) with
          | error e => simp only [hrec] at h; exact Except.noConfusion h
          | ok out =>
            rcases out with ⟨db3, i3, u3⟩
            simp only [hrec, Except.ok.injEq, Prod.mk.injEq] at h
            rw [← h.1, ih _ db3 i3 u3 hrec]
            exact hjobs1

/-- `get_or_create_zone` never touches the job table. -/
theorem getOrCreateZone_jobs (db : Db) (n : String) (p : Option Int) :
    (getOrCreateZone db n p).2.jobs = db.jobs := by
  cases hf : db.zones.find? (fun z => z.name == pyUpper n) with
  | none => simp only [getOrCreateZone, hf]
  | some z =>
    simp only [getOrCreateZone, hf]
    by_cases hc : (pyTruthyInt p && !pyTruthyInt z.ptid) = true
    · simp only [hc, if_true]
    · simp only [hc, if_false, Bool.false_eq_true]

/-- A successful `upsert_ancillary_services` run never touches the job
table. -/
theorem upsertAnc_jobs_ok :
    ∀ (recs : List Record) (db db' : Db) (i u : Nat),
      upsertAncillaryServices recs db = .ok (db', i, u) →
      db'.jobs = db.jobs := by
  intro recs
  induction recs with
  | nil =>
    intro db db' i u h
    simp only [upsertAncillaryServices, Except.ok.injEq, Prod.mk.injEq] at h
    rw [← h.1]
  | cons r2 rest ih =>
    intro db db' i u h
    rw [upsertAncillaryServices] at h
    cases hzn : r2.zone_name with
    | none => simp only [hzn] at h; exact Except.noConfusion h
    | some zn =>
      simp only [hzn] at h
      rcases hgz : getOrCreateZone db zn none with ⟨zone, db1⟩
      simp only [hgz] at h
      have hjobs1 : db1.jobs = db.jobs := by
        have := getOrCreateZone_jobs db zn none
        rwa [hgz] at this
      cases hts : r2.timestamp with
      | none => simp only [hts] at h; exact Except.noConfusion h
      | some ts =>
        simp only [hts] at h
        cases hmt : r2.market_type with
        | none => simp only [hmt] at h; exact Except.noConfusion h
        | some mt =>
          simp only [hmt] at h
          cases hfind : db1.ancillary.find?
              (ancKeyIs ts zone.id mt (r2.service_type.getD "regulation")) with
          | some row0 =>
            simp only [hfind] at h
            cases hrec : upsertAncillaryServices rest
                (ancUpdateStep r2 ts zone.id mt
                  (r2.service_type.getD "regulation") db1) with
            | error e => simp only [hrec] at h; exact Except.noConfusion h
            | ok out =>
              rcases out with ⟨db3, i3, u3⟩
              simp only [hrec, Except.ok.injEq, Prod.mk.injEq] at h
              rw [← h.1, ih _ db3 i3 u3 hrec]
              exact hjobs1
          | none =>
            simp only [hfind] at h
            cases hrec : upsertAncillaryServices rest
                (ancInsertStep r2 ts zone.id mt
                  (r2.service_type.getD "regulation") db1) with
            | error e => simp only [hrec] at h; exact Except.noConfusion h
            | ok out =>
              rcases out with ⟨db3, i3, u3⟩
              simp only [hrec, Except.ok.injEq, Prod.mk.injEq] at h
              rw [← h.1, ih _ db3 i3 u3 hrec]
              exact hjobs1

/-- `upsert_weather_forecast` never touches the job table, whether it
returns or raises. -/
theorem upsertWeather_jobs :
    ∀ (recs : List WeatherRecord) (db : Db),
      (∀ db' i u, upsertWeatherForecast recs db = .ok (db', i, u) →
        db'.jobs = db.jobs) ∧
      (∀ e dbe, upsertWeatherForecast recs db = .error (e, dbe) →
        dbe.jobs = db.jobs) := by
  intro recs
  induction recs with
  | nil =>
    intro db
    constructor
    · intro db' i u h
      simp only [upsertWeatherForecast, Except.ok.injEq, Prod.mk.injEq] at h
      rw [← h.1]
    · intro e dbe h
      exact Except.noConfusion h
  | cons r2 rest ih =>
    intro db
    constructor
    · intro db' i u h
      rw [upsertWeatherForecast] at h
      cases hts : r2.timestamp with
      | none => simp only [hts] at h; exact Except.noConfusion h
      | some ts =>
        simp only [hts] at h
        cases hft : r2.forecast_time with
        | none => simp only [hft] at h; exact Except.noConfusion h
        | some ft =>
          simp only [hft] at h
          cases hfind : db.weather.find?
              (weatherKeyIs ts ft (r2.location.getD "") r2.vintage
                (r2.data_source.getD "NYISO")) with
          | some row0 =>
            simp only [hfind] at h
            cases hrec : upsertWeatherForecast rest
                (weatherUpdateStep r2 ts ft (r2.location.getD "") db) with
            | error e => simp only [hrec] at h; exact Except.noConfusion h
            | ok out =>
              rcases out with ⟨db3, i3, u3⟩
              simp only [hrec, Except.ok.injEq, Prod.mk.injEq] at h
              rw [← h.1]
              exact (ih (weatherUpdateStep r2 ts ft (r2.location.getD "") db)).1
                db3 i3 u3 hrec
          | none =>
            simp only [hfind] at h
            cases hrec : upsertWeatherForecast rest
                (weatherInsertStep r2 ts ft (r2.location.getD "") db) with
            | error e => simp only [hrec] at h; exact Except.noConfusion h
            | ok out =>
              rcases out with ⟨db3, i3, u3⟩
              simp only [hrec, Except.ok.injEq, Prod.mk.injEq] at h
              rw [← h.1]
              exact (ih (weatherInsertStep r2 ts ft (r2.location.getD "") db)).1
                db3 i3 u3 hrec
    · intro e dbe h
      rw [upsertWeatherForecast] at h
      cases hts : r2.timestamp with
      | none =>
        simp only [hts, Except.error.injEq, Prod.mk.injEq] at h
        rw [← h.2]
      | some ts =>
        simp only [hts] at h
        cases hft : r2.forecast_time with
        | none =>
          simp only [hft, Except.error.injEq, Prod.mk.injEq] at h
          rw [← h.2]
        | some ft =>
          simp only [hft] at h
          cases hfind : db.weather.find?
              (weatherKeyIs ts ft (r2.location.getD "") r2.vintage
                (r2.data_source.getD "NYISO")) with
          | some row0 =>
            simp only [hfind] at h
            cases hrec : upsertWeatherForecast rest
                (weatherUpdateStep r2 ts ft (r2.location.getD "") db) with
            | ok out => simp only [hrec] at h; exact Except.noConfusion h
            | error ee =>
              rcases ee with ⟨e2, dbe2⟩
              simp only [hrec, Except.error.injEq, Prod.mk.injEq] at h
              rw [← h.2]
              exact (ih (weatherUpdateStep r2 ts ft (r2.location.getD "") db)).2
                e2 dbe2 hrec
          | none =>
            simp only [hfind] at h
            cases hrec : upsertWeatherForecast rest
                (weatherInsertStep r2 ts ft (r2.location.getD "") db) with
            | ok out => simp only [hrec] at h; exact Except.noConfusion h
            | error ee =>
              rcases ee with ⟨e2, dbe2⟩
              simp only [hrec, Except.error.injEq, Prod.mk.injEq] at h
              rw [← h.2]
              exact (ih (weatherInsertStep r2 ts ft (r2.location.getD "") db)).2
                e2 dbe2 hrec

/-- The failed form of a job row (status and error message only). -/
def jobFailed (x : ScrapingJob) (msg : String) : ScrapingJob :=
  { x with status := "failed", error_message := some msg }

/-- The completed form of a job row (final counts and status). -/
def jobCompleted (x : ScrapingJob) (ins upd : Nat) : ScrapingJob :=
  { x with rows_inserted := ins, rows_updated := upd, status := "completed" }

/-- A job row with its scraped-row count set. -/
def jobScraped (x : ScrapingJob) (n : Nat) : ScrapingJob :=
  { x with rows_scraped := n }

/-- `failJob` on a session whose job table ends in the (fresh) job row
being mutated: rewrites exactly that row and commits. -/
theorem failJob_spec (jid : Nat) (sessX : Session) (msg : String)
    (x : ScrapingJob) (old : List ScrapingJob)
    (hjobs : sessX.pending.jobs = old ++ [x]) (hx : x.id = jid)
    (hfr : ∀ a ∈ old, (a.id == jid) = false) :
    failJob jid msg sessX =
      (some (jobFailed x msg),
       ⟨withJobs sessX.pending (old ++ [jobFailed x msg]),
        withJobs sessX.pending (old ++ [jobFailed x msg])⟩) := by
  subst hx
  unfold failJob
  rw [hjobs, updateFirst_append_of_fresh _ _ (by simp) hfr,
    find?_append_of_fresh _ (by simp [jobFailed]) hfr]
  rfl

/-- `completeJob` on a session whose job table ends in the (fresh) job
row being mutated. -/
theorem completeJob_spec (jid : Nat) (sessX : Session) (ins upd : Nat)
    (x : ScrapingJob) (old : List ScrapingJob)
    (hjobs : sessX.pending.jobs = old ++ [x]) (hx : x.id = jid)
    (hfr : ∀ a ∈ old, (a.id == jid) = false) :
    completeJob jid ins upd sessX =
      (some (jobCompleted x ins upd),
       ⟨withJobs sessX.pending (old ++ [jobCompleted x ins upd]),
        withJobs sessX.pending (old ++ [jobCompleted x ins upd])⟩) := by
  subst hx
  unfold completeJob
  rw [hjobs, updateFirst_append_of_fresh _ _ (by simp) hfr,
    find?_append_of_fresh _ (by simp [jobCompleted]) hfr]
  rfl

/-- `setRowsScraped` on a session whose job table ends in the (fresh)
job row being mutated: a pending-only mutation. -/
theorem setRowsScraped_spec (jid : Nat) (sessX : Session) (n : Nat)
    (x : ScrapingJob) (old : List ScrapingJob)
    (hjobs : sessX.pending.jobs = old ++ [x]) (hx : x.id = jid)
    (hfr : ∀ a ∈ old, (a.id == jid) = false) :
    setRowsScraped jid n sessX =
      ⟨sessX.committed, withJobs sessX.pending (old ++ [jobScraped x n])⟩ := by
  subst hx
  unfold setRowsScraped
  rw [hjobs, updateFirst_append_of_fresh _ _ (by simp) hfr]
  rfl

/-- `write_records` either skips an unmodelled code without touching the
session, commits the upsert result (which never touches the job table),
or rolls back to the committed state and re-raises. -/
theorem writeRecords_cases (records : List Record) (code : String)
    (sessX : Session) :
    writeRecords records code sessX = (sessX, .ok (0, 0)) ∨
    (∃ db' i u, writeRecords records code sessX = (⟨db', db'⟩, .ok (i, u)) ∧
      db'.jobs = sessX.pending.jobs) ∨
    (∃ e, writeRecords records code sessX =
      (⟨sessX.committed, sessX.committed⟩, .error e)) := by
  unfold writeRecords
  by_cases h24 : code = "P-24A"
  · subst h24
    simp only [dispatchUpsert, if_pos]
    cases hup : upsertRealtimeLbmp records sessX.pending with
    | ok out =>
      rcases out with ⟨db', i, u⟩
      exact Or.inr (Or.inl ⟨db', i, u, rfl,
        upsertRt_jobs_ok records sessX.pending db' i u hup⟩)
    | error e =>
      rcases e with ⟨e, dbe⟩
      exact Or.inr (Or.inr ⟨e, rfl⟩)
  · by_cases h6b : code = "P-6B" ∨ code = "P-5"
    · have hd : dispatchUpsert code = some upsertAncillaryServices := by
        unfold dispatchUpsert
        rcases h6b with h | h <;> subst h <;> simp
      rw [hd]
      simp only []
      cases hup : upsertAncillaryServices records sessX.pending with
      | ok out =>
        rcases out with ⟨db', i, u⟩
        exact Or.inr (Or.inl ⟨db', i, u, rfl,
          upsertAnc_jobs_ok records sessX.pending db' i u hup⟩)
      | error e =>
        rcases e with ⟨e, dbe⟩
        exact Or.inr (Or.inr ⟨e, rfl⟩)
    · have hd : dispatchUpsert code = none := by
        unfold dispatchUpsert
        push_neg at h6b
        simp [h24, h6b.1, h6b.2]
      rw [hd]
      exact Or.inl rfl

/-- Characterization of `_scrape_single_source` on a clean session with
fresh job ids: it either short-circuits on a prior completed job (session
untouched, no effects), returns nothing when the data source is unknown,
or appends exactly one new job row whose target date is the truncated
request date — and when that job ends `failed`, its inserted/updated
counts are zero and no fact row or zone reached the committed state. -/
theorem scrapeSingleSource_spec (cfg : SourceConfig) (date : PyDateTime)
    (force : Bool) (dl : Downloader) (env : FallbackEnv)
    (parse : String → Except Unit (List Record)) (sess : Session)
    (hfresh : ∀ j ∈ sess.pending.jobs,
      (j.id == sess.pending.nextJobId) = false)
    (hclean : sess.pending = sess.committed) :
    (∃ j, scrapeSingleSource cfg date force dl env parse sess =
        (some j, sess, []) ∧ j ∈ sess.pending.jobs ∧
        j.status = "completed") ∨
    scrapeSingleSource cfg date force dl env parse sess = (none, sess, []) ∨
    (∃ j sess' effs, scrapeSingleSource cfg date force dl env parse sess =
        (some j, sess', effs) ∧
      j.target_date = truncateToMidnight date ∧
      sess'.committed = sess'.pending ∧
      sess'.pending.jobs = sess.pending.jobs ++ [j] ∧
      (j.status = "failed" → j.rows_inserted = 0 ∧ j.rows_updated = 0 ∧
        sess'.committed.rtLbmp = sess.committed.rtLbmp ∧
        sess'.committed.ancillary = sess.committed.ancillary ∧
        sess'.committed.zones = sess.committed.zones)) := by
  simp only [scrapeSingleSource]
  split
  next j heq =>
    left
    have hj : sess.pending.jobs.find? (jobMatches sess.pending
        cfg.report_code (truncateToMidnight date)) = some j := by
      by_cases hf : force
      · rw [if_pos hf] at heq; cases heq
      · rwa [if_neg hf] at heq
    have hmatch := List.find?_some hj
    have hst : j.status = "completed" := by
      unfold jobMatches at hmatch
      have h2 := (Bool.and_eq_true _ _).mp hmatch |>.2
      rwa [beq_iff_eq] at h2
    exact ⟨j, rfl, List.mem_of_find?_eq_some hj, hst⟩
  next heq =>
    split
    next heq2 => right; left; rfl
    next ds heq2 =>
      right; right
      rcases hdw : downloadWithFallback dl env (cfg.buildUrl date false)
          (some (cfg.buildUrl date true))
          (some (cfg.getFilenamePattern date)) (some date.toDate)
          (some cfg.direct_csv_url_template) with ⟨body, rungs⟩
      simp only []
      set tgt := truncateToMidnight date with htgt
      set n := sess.pending.nextJobId with hn
      set job0 : ScrapingJob := ⟨n, ds.id, tgt, "running", 0, 0, 0, none⟩ with hjob0
      set P1 : Db := { sess.pending with jobs := sess.pending.jobs ++ [job0], nextJobId := n + 1 } with hP1
      have hsess1 : Session.commit ⟨sess.committed, P1⟩ = ⟨P1, P1⟩ := rfl
      have hfr : ∀ a ∈ sess.pending.jobs, (a.id == n) = false := hfresh
      cases body with
      | none =>
        rw [hsess1, failJob_spec n ⟨P1, P1⟩ "download failed" job0
          sess.pending.jobs rfl rfl hfr]
        refine ⟨jobFailed job0 "download failed", _, _, rfl, rfl, rfl, rfl, ?_⟩
        intro _
        refine ⟨rfl, rfl, ?_, ?_, ?_⟩
        · show sess.pending.rtLbmp = sess.committed.rtLbmp
          exact congrArg Db.rtLbmp hclean
        · show sess.pending.ancillary = sess.committed.ancillary
          exact congrArg Db.ancillary hclean
        · show sess.pending.zones = sess.committed.zones
          exact congrArg Db.zones hclean
      | some csv =>
        simp only []
        by_cases hcsv : pyTruthyStr csv = true
        · rw [if_pos hcsv, hsess1, setRowsScraped_spec n ⟨P1, P1⟩
            ((csv.splitOn "\n").length - 1) job0 sess.pending.jobs rfl rfl hfr]
          simp only []
          set x1 := jobScraped job0 ((csv.splitOn "\n").length - 1) with hx1
          cases hp : parse csv with
          | error e =>
            simp only []
            rw [failJob_spec n ⟨P1, withJobs P1 (sess.pending.jobs ++ [x1])⟩
              "parse failed" x1 sess.pending.jobs rfl rfl hfr]
            refine ⟨jobFailed x1 "parse failed", _, _, rfl, rfl, rfl, rfl, ?_⟩
            intro _
            refine ⟨rfl, rfl, ?_, ?_, ?_⟩
            · show sess.pending.rtLbmp = sess.committed.rtLbmp
              exact congrArg Db.rtLbmp hclean
            · show sess.pending.ancillary = sess.committed.ancillary
              exact congrArg Db.ancillary hclean
            · show sess.pending.zones = sess.committed.zones
              exact congrArg Db.zones hclean
          | ok records =>
            simp only []
            rcases writeRecords_cases records cfg.report_code
                ⟨P1, withJobs P1 (sess.pending.jobs ++ [x1])⟩ with
              hwr | ⟨db2, i, u, hwr, hjobs⟩ | ⟨e, hwr⟩
            · rw [hwr]
              simp only []
              rw [completeJob_spec n ⟨P1, withJobs P1 (sess.pending.jobs ++ [x1])⟩ 0 0 x1 sess.pending.jobs rfl rfl hfr]
              refine ⟨jobCompleted x1 0 0, _, _, rfl, rfl, rfl, rfl, ?_⟩
              intro hst
              exact absurd hst (by simp [jobCompleted, jobScraped])
            · rw [hwr]
              simp only []
              rw [completeJob_spec n ⟨db2, db2⟩ i u x1 sess.pending.jobs
                hjobs rfl hfr]
              refine ⟨jobCompleted x1 i u, _, _, rfl, rfl, rfl, rfl, ?_⟩
              intro hst
              exact absurd hst (by simp [jobCompleted, jobScraped])
            · rw [hwr]
              simp only []
              rw [failJob_spec n ⟨P1, P1⟩ (pyExcMessage e) job0
                sess.pending.jobs rfl rfl hfr]
              refine ⟨jobFailed job0 (pyExcMessage e), _, _, rfl, rfl, rfl,
                rfl, ?_⟩
              intro _
              refine ⟨rfl, rfl, ?_, ?_, ?_⟩
              · show sess.pending.rtLbmp = sess.committed.rtLbmp
                exact congrArg Db.rtLbmp hclean
              · show sess.pending.ancillary = sess.committed.ancillary
                exact congrArg Db.ancillary hclean
              · show sess.pending.zones = sess.committed.zones
                exact congrArg Db.zones hclean
        · rw [if_neg hcsv, hsess1, failJob_spec n ⟨P1, P1⟩ "download failed"
            job0 sess.pending.jobs rfl rfl hfr]
          refine ⟨jobFailed job0 "download failed", _, _, rfl, rfl, rfl, rfl,
            ?_⟩
          intro _
          refine ⟨rfl, rfl, ?_, ?_, ?_⟩
          · show sess.pending.rtLbmp = sess.committed.rtLbmp
            exact congrArg Db.rtLbmp hclean
          · show sess.pending.ancillary = sess.committed.ancillary
            exact congrArg Db.ancillary hclean
          · show sess.pending.zones = sess.committed.zones
            exact congrArg Db.zones hclean

/-! ### C7: job-level short-circuit -/

/-- C7: when a completed job already exists for the (report, truncated
date) key and force is not set, `_scrape_single_source` performs no
network fetch, no parse and no write (empty effect trace), leaves the
session untouched, and returns that prior job unchanged; and the session
gains a new job row only when force is set or no completed job exists. -/
theorem C7_job_short_circuit (cfg : SourceConfig) (date : PyDateTime)
    (dl : Downloader) (env : FallbackEnv)
    (parse : String → Except Unit (List Record)) (sess : Session) :
    (∀ j, sess.pending.jobs.find? (jobMatches sess.pending cfg.report_code
        (truncateToMidnight date)) = some j →
      scrapeSingleSource cfg date false dl env parse sess =
        (some j, sess, [])) ∧
    (∀ force out, scrapeSingleSource cfg date force dl env parse sess = out →
      out.2.1.pending.jobs ≠ sess.pending.jobs →
      force = true ∨ sess.pending.jobs.find? (jobMatches sess.pending
        cfg.report_code (truncateToMidnight date)) = none) := by
  have main : ∀ j, sess.pending.jobs.find? (jobMatches sess.pending
      cfg.report_code (truncateToMidnight date)) = some j →
      scrapeSingleSource cfg date false dl env parse sess =
        (some j, sess, []) := by
    intro j hj
    simp [scrapeSingleSource, hj]
  refine ⟨main, ?_⟩
  intro force out hout hne
  cases force with
  | true => exact Or.inl rfl
  | false =>
    cases hfind : sess.pending.jobs.find? (jobMatches sess.pending
        cfg.report_code (truncateToMidnight date)) with
    | some j =>
      exfalso
      apply hne
      rw [main j hfind] at hout
      rw [← hout]
    | none => exact Or.inr rfl

/-- The completed job of the C7 witness. -/
def c7Job : ScrapingJob :=
  ⟨1, 1, ⟨2026, 1, 1, 0, 0, 0, 0⟩, "completed", 2, 2, 0, none⟩

/-- Store of the C7 witness: one data source and its completed job. -/
def c7Db : Db :=
  { db0 with dataSources := [⟨1, "P-24A"⟩], jobs := [c7Job], nextDataSourceId := 2, nextJobId := 2 }

/-- Source configuration used by the C7 and C10 witnesses. -/
def c7Cfg : SourceConfig :=
  ⟨"lbmp", "P-24A", "f_{YYYYMMDD}.csv", "http://d/{YYYYMMDD}.csv",
   "http://a/{YYYYMM01}.zip"⟩

/-- Witness for C7: a second, non-forced scrape of the same report later
on the same day returns the prior completed job with no effects. -/
theorem C7_job_short_circuit_witness :
    scrapeSingleSource c7Cfg ⟨2026, 1, 1, 7, 30, 0, 0⟩ false ⟨3, 2, true⟩
      ladderWitnessEnv (fun _ => .error ()) ⟨c7Db, c7Db⟩ =
      (some c7Job, ⟨c7Db, c7Db⟩, []) :=
  (C7_job_short_circuit c7Cfg ⟨2026, 1, 1, 7, 30, 0, 0⟩ ⟨3, 2, true⟩
    ladderWitnessEnv (fun _ => .error ()) ⟨c7Db, c7Db⟩).1 c7Job (by rfl)

/-! ### C6: atomic batch write -/

/-- C6: the write of one batch is atomic.  Part 1: whenever
`write_records` re-raises an exception, the session it leaves behind has
been rolled back — both its committed and its pending state equal the
pre-call committed state, so no row of the batch was persisted.  Part 2:
in a full `_scrape_single_source` run over a clean session, whenever the
returned job ends `failed` its inserted and updated counts are zero and
the committed fact tables (realtime LBMP, ancillary services, zones) are
exactly the pre-run ones. -/
theorem C6_atomic_write (records : List Record) (code : String)
    (sessX : Session) (cfg : SourceConfig) (date : PyDateTime)
    (force : Bool) (dl : Downloader) (env : FallbackEnv)
    (parse : String → Except Unit (List Record)) (sess : Session)
    (hfresh : ∀ j ∈ sess.pending.jobs,
      (j.id == sess.pending.nextJobId) = false)
    (hclean : sess.pending = sess.committed) :
    (∀ sessE e, writeRecords records code sessX = (sessE, .error e) →
      sessE.committed = sessX.committed ∧ sessE.pending = sessX.committed) ∧
    (∀ j sess' effs,
      scrapeSingleSource cfg date force dl env parse sess =
        (some j, sess', effs) →
      j.status = "failed" →
      j.rows_inserted = 0 ∧ j.rows_updated = 0 ∧
      sess'.committed.rtLbmp = sess.committed.rtLbmp ∧
      sess'.committed.ancillary = sess.committed.ancillary ∧
      sess'.committed.zones = sess.committed.zones) := by
  constructor
  · intro sessE e h
    rcases writeRecords_cases records code sessX with
      hwr | ⟨db', i, u, hwr, _⟩ | ⟨e', hwr⟩
    · rw [hwr] at h
      exact Except.noConfusion (congrArg Prod.snd h)
    · rw [hwr] at h
      exact Except.noConfusion (congrArg Prod.snd h)
    · rw [hwr] at h
      injection h with h1 h2
      rw [← h1]
      exact ⟨rfl, rfl⟩
  · intro j sess' effs hrun hfail
    rcases scrapeSingleSource_spec cfg date force dl env parse sess hfresh
        hclean with
      ⟨j0, hr0, _, hst0⟩ | hr0 | ⟨j0, s0, e0, hr0, _, _, _, himp⟩
    · rw [hr0] at hrun
      injection hrun with h1 h2
      rw [← Option.some_inj.mp h1] at hfail
      rw [hst0] at hfail
      exact absurd hfail (by decide)
    · rw [hr0] at hrun
      injection hrun with h1 h2
      exact Option.noConfusion h1
    · rw [hr0] at hrun
      injection hrun with h1 h2
      injection h2 with h21 h22
      rw [← Option.some_inj.mp h1] at hfail ⊢
      rw [← h21]
      exact himp hfail

/-- Records of the C6 witness: the second record lacks `zone_name`, so
the realtime-LBMP upsert raises `KeyError` after the first record has
already inserted a fact row and created a zone into the pending state. -/
def c6Recs : List Record :=
  [⟨some 10, some "WEST", none, some 5, none, none, none, none, none⟩,
   ⟨some 11, none, none, some 6, none, none, none, none, none⟩]

/-- Store of the C6 witness: the `P-24A` data source exists and nothing
else does. -/
def c6Db : Db :=
  { db0 with dataSources := [⟨1, "P-24A"⟩], nextDataSourceId := 2 }

/-- Source configuration of the C6 witness. -/
def c6Cfg : SourceConfig :=
  ⟨"lbmp", "P-24A", "g_{YYYYMMDD}.csv", "http://e/{YYYYMMDD}.csv",
   "http://b/{YYYYMM01}.zip"⟩

/-- Network of the C6 witness: every CSV fetch 404s and no archive
exists, so the whole download ladder fails. -/
def c6Env : FallbackEnv :=
  ⟨fun _ _ => .httpError 404, fun _ _ => none⟩

/-- Parse oracle of the C6 witness. -/
def c6Parse : String → Except Unit (List Record) :=
  fun _ => .ok c6Recs

/-- Request time of the C6 witness run. -/
def c6Date : PyDateTime :=
  ⟨2026, 1, 2, 7, 30, 0, 0⟩

/-- The failed job row the C6 witness run produces. -/
def c6FailedJob : ScrapingJob :=
  ⟨1, 1, ⟨2026, 1, 2, 0, 0, 0, 0⟩, "failed", 0, 0, 0, some "download failed"⟩

/-- Store after the C6 witness run: only the failed job row was added. -/
def c6DbAfter : Db :=
  { c6Db with jobs := [c6FailedJob], nextJobId := 2 }

/-- Effect trace of the C6 witness run: all four ladder rungs, no parse,
no write. -/
def c6Effs : List Effect :=
  [.fetch (.directCsv "http://e/20260102.csv"),
   .fetch (.directCsv "http://e/20260101.csv"),
   .fetch (.archiveZip "http://b/20260101.zip"),
   .fetch (.archiveZip "http://b/20251201.zip")]

/-- Witness for C6: a concrete failing batch is fully rolled back with
the `KeyError` re-raised, and a concrete failed scrape run reports zero
inserted/updated rows and leaves every committed fact table unchanged. -/
theorem C6_atomic_write_witness :
    scrapeSingleSource c6Cfg c6Date false ⟨3, 2, true⟩ c6Env c6Parse
        ⟨c6Db, c6Db⟩ = (some c6FailedJob, ⟨c6DbAfter, c6DbAfter⟩, c6Effs) ∧
    writeRecords c6Recs "P-24A" ⟨c6Db, c6Db⟩ =
      (⟨c6Db, c6Db⟩, Except.error (PyExc.keyError "zone_name")) ∧
    ((⟨c6Db, c6Db⟩ : Session).committed = (⟨c6Db, c6Db⟩ : Session).committed ∧
     (⟨c6Db, c6Db⟩ : Session).pending = (⟨c6Db, c6Db⟩ : Session).committed) ∧
    (c6FailedJob.rows_inserted = 0 ∧ c6FailedJob.rows_updated = 0 ∧
     (⟨c6DbAfter, c6DbAfter⟩ : Session).committed.rtLbmp =
       (⟨c6Db, c6Db⟩ : Session).committed.rtLbmp ∧
     (⟨c6DbAfter, c6DbAfter⟩ : Session).committed.ancillary =
       (⟨c6Db, c6Db⟩ : Session).committed.ancillary ∧
     (⟨c6DbAfter, c6DbAfter⟩ : Session).committed.zones =
       (⟨c6Db, c6Db⟩ : Session).committed.zones) :=
  ⟨rfl, rfl,
   (C6_atomic_write c6Recs "P-24A" ⟨c6Db, c6Db⟩ c6Cfg c6Date false
     ⟨3, 2, true⟩ c6Env c6Parse ⟨c6Db, c6Db⟩
     (fun j hj => absurd hj (List.not_mem_nil j)) rfl).1
     ⟨c6Db, c6Db⟩ (.keyError "zone_name") rfl,
   (C6_atomic_write c6Recs "P-24A" ⟨c6Db, c6Db⟩ c6Cfg c6Date false
     ⟨3, 2, true⟩ c6Env c6Parse ⟨c6Db, c6Db⟩
     (fun j hj => absurd hj (List.not_mem_nil j)) rfl).2
     c6FailedJob ⟨c6DbAfter, c6DbAfter⟩ c6Effs rfl rfl⟩

/-! ### C10: target dates are truncated to midnight -/

/-- The job table after `scrape_openmeteo_weather` is either the old one
or the old one with exactly one new row appended whose target date is the
truncated request date. -/
theorem openmeteo_jobs_shape (date : PyDateTime) (force : Bool)
    (oracle : OpenMeteoOracle) (sess : Session)
    (hfresh : ∀ j ∈ sess.pending.jobs,
      (j.id == sess.pending.nextJobId) = false) :
    (scrapeOpenmeteoWeather date force oracle sess).2.pending.jobs =
      sess.pending.jobs ∨
    ∃ g, g.target_date = truncateToMidnight date ∧
      (scrapeOpenmeteoWeather date force oracle sess).2.pending.jobs =
        sess.pending.jobs ++ [g] := by
  simp only [scrapeOpenmeteoWeather]
  split
  next => exact Or.inl rfl
  next =>
    split
    next j heq => exact Or.inl rfl
    next heq =>
      cases hds : sess.pending.dataSources.find?
          (fun d => d.report_code == "OPENMETEO-WEATHER") with
      | some d =>
        simp only [hds]
        split
        next e dbr heq2 =>
          split at heq2
          · exact Except.noConfusion heq2
          · have hjr := (upsertWeather_jobs _ _).2 e dbr heq2
            simp only [Session.commit] at hjr ⊢
            rw [hjr, updateFirst_append_of_fresh _ _ (by simp)
              (fun a ha => by simpa using hfresh a ha)]
            exact Or.inr ⟨_, rfl, rfl⟩
        next db2 ins upd heq2 =>
          split at heq2
          · injection heq2 with h
            injection h with h1 h2
            simp only [Session.commit] at h1 ⊢
            rw [← h1, updateFirst_append_of_fresh _ _ (by simp)
              (fun a ha => by simpa using hfresh a ha)]
            exact Or.inr ⟨_, rfl, rfl⟩
          · have hjr := (upsertWeather_jobs _ _).1 db2 ins upd heq2
            simp only [Session.commit] at hjr ⊢
            rw [hjr, updateFirst_append_of_fresh _ _ (by simp)
              (fun a ha => by simpa using hfresh a ha)]
            exact Or.inr ⟨_, rfl, rfl⟩
      | none =>
        simp only [hds]
        split
        next e dbr heq2 =>
          split at heq2
          · exact Except.noConfusion heq2
          · have hjr := (upsertWeather_jobs _ _).2 e dbr heq2
            simp only [Session.commit] at hjr ⊢
            rw [hjr, updateFirst_append_of_fresh _ _ (by simp)
              (fun a ha => by simpa using hfresh a ha)]
            exact Or.inr ⟨_, rfl, rfl⟩
        next db2 ins upd heq2 =>
          split at heq2
          · injection heq2 with h
            injection h with h1 h2
            simp only [Session.commit] at h1 ⊢
            rw [← h1, updateFirst_append_of_fresh _ _ (by simp)
              (fun a ha => by simpa using hfresh a ha)]
            exact Or.inr ⟨_, rfl, rfl⟩
          · have hjr := (upsertWeather_jobs _ _).1 db2 ins upd heq2
            simp only [Session.commit] at hjr ⊢
            rw [hjr, updateFirst_append_of_fresh _ _ (by simp)
              (fun a ha => by simpa using hfresh a ha)]
            exact Or.inr ⟨_, rfl, rfl⟩

/-- C10: every ScrapingJob row either pre-existed or carries a target
date truncated to midnight.  Parts 1 and 2: each job row present after a
`_scrape_single_source` or `scrape_openmeteo_weather` run is an old row
or targets `truncateToMidnight date`.  Part 3: truncation zeroes the
hour, minute, second and microsecond.  Part 4: two request times on the
same calendar day truncate to the same key, so the completed-job lookup
operates at day granularity. -/
theorem C10_target_date_truncation (cfg : SourceConfig)
    (date d1 d2 : PyDateTime) (force : Bool) (dl : Downloader)
    (env : FallbackEnv) (parse : String → Except Unit (List Record))
    (oracle : OpenMeteoOracle) (sess : Session)
    (hfresh : ∀ j ∈ sess.pending.jobs,
      (j.id == sess.pending.nextJobId) = false)
    (hclean : sess.pending = sess.committed) :
    (∀ j, j ∈ (scrapeSingleSource cfg date force dl env parse
        sess).2.1.pending.jobs →
      j ∈ sess.pending.jobs ∨ j.target_date = truncateToMidnight date) ∧
    (∀ j, j ∈ (scrapeOpenmeteoWeather date force oracle
        sess).2.pending.jobs →
      j ∈ sess.pending.jobs ∨ j.target_date = truncateToMidnight date) ∧
    ((truncateToMidnight d1).hour = 0 ∧ (truncateToMidnight d1).minute = 0 ∧
     (truncateToMidnight d1).second = 0 ∧
     (truncateToMidnight d1).microsecond = 0) ∧
    (sameDay d1 d2 → truncateToMidnight d1 = truncateToMidnight d2) := by
  refine ⟨?_, ?_, ⟨rfl, rfl, rfl, rfl⟩, ?_⟩
  · intro j hj
    rcases scrapeSingleSource_spec cfg date force dl env parse sess hfresh
        hclean with
      ⟨j0, hr0, _, _⟩ | hr0 | ⟨j0, s0, e0, hr0, htd, _, hjobs, _⟩
    · rw [hr0] at hj
      exact Or.inl hj
    · rw [hr0] at hj
      exact Or.inl hj
    · rw [hr0] at hj
      simp only [] at hj
      rw [hjobs] at hj
      rcases List.mem_append.mp hj with h | h
      · exact Or.inl h
      · rw [List.mem_singleton.mp h]
        exact Or.inr htd
  · intro j hj
    rcases openmeteo_jobs_shape date force oracle sess hfresh with
      hsh | ⟨g, hg, hsh⟩
    · rw [hsh] at hj
      exact Or.inl hj
    · rw [hsh] at hj
      rcases List.mem_append.mp hj with h | h
      · exact Or.inl h
      · rw [List.mem_singleton.mp h]
        exact Or.inr hg
  · intro hsd
    obtain ⟨h1, h2, h3⟩ := (hsd : d1.year = d2.year ∧ d1.month = d2.month ∧
      d1.day = d2.day)
    show PyDateTime.mk d1.year d1.month d1.day 0 0 0 0 =
      PyDateTime.mk d2.year d2.month d2.day 0 0 0 0
    rw [h1, h2, h3]

/-- Witness for C10: two request times on January 2, 2026 truncate to the
identical midnight key, whose time-of-day components are all zero. -/
theorem C10_target_date_truncation_witness :
    ((truncateToMidnight ⟨2026, 1, 2, 7, 30, 0, 0⟩).hour = 0 ∧
     (truncateToMidnight ⟨2026, 1, 2, 7, 30, 0, 0⟩).minute = 0 ∧
     (truncateToMidnight ⟨2026, 1, 2, 7, 30, 0, 0⟩).second = 0 ∧
     (truncateToMidnight ⟨2026, 1, 2, 7, 30, 0, 0⟩).microsecond = 0) ∧
    truncateToMidnight ⟨2026, 1, 2, 7, 30, 0, 0⟩ =
      truncateToMidnight ⟨2026, 1, 2, 23, 59, 59, 5⟩ := by
  have h := C10_target_date_truncation c7Cfg ⟨2026, 1, 2, 7, 30, 0, 0⟩
    ⟨2026, 1, 2, 7, 30, 0, 0⟩ ⟨2026, 1, 2, 23, 59, 59, 5⟩ false ⟨3, 2, true⟩
    ⟨fun _ _ => .httpError 404, fun _ _ => none⟩ (fun _ => .error ())
    ⟨false, 0, fun _ => .error ()⟩ ⟨db0, db0⟩
    (fun j hj => absurd hj (List.not_mem_nil j)) rfl
  exact ⟨h.2.2.1, h.2.2.2 ⟨rfl, rfl, rfl⟩⟩

end NYISO
